import Mathlib

/-!
# Atermes JWT extraction: a shallow embedding

The Go sources `auth/extractor.go` and `service/jwt_service.go` are embedded
as pure Lean functions with explicit state passing.

* A Go `string` is a finite sequence of bytes, `len` is its byte count.
* The browser (playwright), the database (gorm), the TOTP generator and the
  JSON decoder are external libraries: they enter as explicit parameters.
* `log.Println` / `log.Printf` calls have no effect on any modelled state and
  are left out.
* What the code does to the page and to the world outside is recorded in a
  trace, so that "fills", "presses", "invokes" and "requests" can be stated.
* The order in which `range` walks a Go map is a parameter, and so is the
  allocation of the loop variable of a `for ... range` statement, which depends
  on the language version declared in `go.mod`.
-/

namespace Atermes

/-! ## Go strings -/

/-- A Go `string`: an immutable sequence of bytes. -/
abbrev GoString := List UInt8

/-- The bytes of a string literal of the source. -/
def gostr (s : String) : GoString := s.toUTF8.data.toList

namespace strings

/-- Go `strings.HasPrefix`: `len(s) >= len(p) && s[:len(p)] == p`. -/
def HasPrefix (s p : GoString) : Bool :=
  decide (p.length ≤ s.length) && (s.take p.length == p)

/-- Go `strings.TrimPrefix`: `s` without the leading `p`, or `s` itself when
`s` does not start with `p`. -/
def TrimPrefix (s p : GoString) : GoString :=
  if HasPrefix s p then s.drop p.length else s

/-- Go `strings.Contains`: `substr` occurs in `s` at some offset. -/
def Contains (s substr : GoString) : Bool :=
  (List.range (s.length + 1)).any (fun i => HasPrefix (s.drop i) substr)

end strings

/-! ## Go maps -/

/-- A Go `map[K]V`, kept as an association list with pairwise distinct keys in
order of first insertion. The order is not observable through `get`. -/
abbrev GoMap (K V : Type) := List (K × V)

namespace GoMap

variable {K V : Type} [DecidableEq K]

/-- The lookup `v, ok := m[k]`. -/
def get (m : GoMap K V) (k : K) : Option V :=
  match m with
  | [] => none
  | (k1, v1) :: rest => if k1 = k then some v1 else get rest k

/-- The assignment `m[k] = v`. -/
def set (m : GoMap K V) (k : K) (v : V) : GoMap K V :=
  match m with
  | [] => [(k, v)]
  | (k1, v1) :: rest => if k1 = k then (k1, v) :: rest else (k1, v1) :: set rest k v

end GoMap

/-! ## `auth/extractor.go`: captured state -/

/-- The Go struct `AuthData`. -/
structure AuthData where
  JWT : GoString
  Cookies : GoMap GoString GoString
  Timestamp : Int
deriving DecidableEq

/-- The Go struct `Extractor`, without the browser handles (they are the
explicit page state of the functions below) and without the mutex (every write
to `authData.JWT` happens under it, so writes are applied one after another). -/
structure Extractor where
  baseURL : GoString
  username : GoString
  password : GoString
  totpSecret : GoString
  totpToken : GoString
  authData : AuthData
  debug : Bool
deriving DecidableEq

/-- The Go constructor `NewExtractor`. -/
def NewExtractor (baseURL username password totpSecret totpToken : GoString) : Extractor :=
  { baseURL := baseURL, username := username, password := password,
    totpSecret := totpSecret, totpToken := totpToken,
    authData := { JWT := [], Cookies := [], Timestamp := 0 },
    debug := true }

/-! ## Header path -/

/-- The Go method `Extractor.tryExtractJWT`. -/
def tryExtractJWT (e : Extractor) (authHeader : GoString) : Extractor :=
  let token := strings.TrimPrefix authHeader (gostr "Bearer ")
  if token.length > 50 then
    { e with authData := { e.authData with JWT := token } }
  else
    e

/-! ## Body path -/

/-- A value decoded by `encoding/json` into `interface{}`. A number is kept
as its literal text: the program never inspects one. -/
inductive JSONValue where
  | null : JSONValue
  | bool (b : Bool) : JSONValue
  | number (literal : GoString) : JSONValue
  | string (s : GoString) : JSONValue
  | array (items : List JSONValue) : JSONValue
  | object (fields : List (GoString × JSONValue)) : JSONValue

/-- The result of `json.Unmarshal([]byte(str), &data)` for
`data : map[string]interface{}`: `none` when it returns an error, the decoded
map otherwise. The decoder is a library function and is a parameter. -/
abbrev Unmarshal := GoString → Option (GoMap GoString JSONValue)

/-- The keys probed by `extractTokenFromJSON`, in source order. -/
def tokenKeys : List GoString :=
  [gostr "token", gostr "access_token", gostr "jwt", gostr "id_token"]

/-- The loop `for _, key := range []string{...}` of `extractTokenFromJSON`
over the remaining keys. -/
def extractTokenFromJSON.loop (data : GoMap GoString JSONValue) (e : Extractor) :
    List GoString → Extractor
  | [] => e
  | key :: rest =>
    match data.get key with
    | some (JSONValue.string s) =>
      if s.length > 20 then
        { e with authData := { e.authData with JWT := s } }
      else
        extractTokenFromJSON.loop data e rest
    | _ => extractTokenFromJSON.loop data e rest

/-- The Go method `Extractor.extractTokenFromJSON`. -/
def extractTokenFromJSON (unmarshal : Unmarshal) (e : Extractor) (str : GoString) : Extractor :=
  match unmarshal str with
  | none => e
  | some data => extractTokenFromJSON.loop data e tokenKeys

/-! ## Sightings -/

/-- One token sighting delivered by the browser: an `Authorization` header
value handed to `tryExtractJWT`, or a response body handed to
`extractTokenFromJSON`. -/
inductive Sighting where
  | header (value : GoString) : Sighting
  | body (str : GoString) : Sighting

/-- Apply one sighting to the extractor. -/
def applySighting (unmarshal : Unmarshal) (e : Extractor) : Sighting → Extractor
  | Sighting.header value => tryExtractJWT e value
  | Sighting.body str => extractTokenFromJSON unmarshal e str

/-- Apply a sequence of sightings one after another. -/
def applySightings (unmarshal : Unmarshal) (e : Extractor) (ss : List Sighting) : Extractor :=
  ss.foldl (applySighting unmarshal) e

/-! ## Candidates of a sighting, as the specification words them -/

/-- The value of `key` in `data` when it is a string longer than 20 bytes. -/
def keyCandidate (data : GoMap GoString JSONValue) (key : GoString) : Option GoString :=
  match data.get key with
  | some (JSONValue.string s) => if 20 < s.length then some s else none
  | _ => none

/-- Header sighting: the value with one leading `Bearer ` removed, when that
remainder is longer than 50 bytes. -/
def headerCandidate (value : GoString) : Option GoString :=
  if 50 < (strings.TrimPrefix value (gostr "Bearer ")).length then
    some (strings.TrimPrefix value (gostr "Bearer "))
  else none

/-- Body sighting: the value of the first key, in the order `token`,
`access_token`, `jwt`, `id_token`, that is a string longer than 20 bytes. -/
def bodyCandidate (unmarshal : Unmarshal) (str : GoString) : Option GoString :=
  match unmarshal str with
  | none => none
  | some data => tokenKeys.findSome? (keyCandidate data)

/-- The candidate token of a sighting, `none` when the sighting does not
qualify. -/
def Sighting.candidate (unmarshal : Unmarshal) : Sighting → Option GoString
  | Sighting.header value => headerCandidate value
  | Sighting.body str => bodyCandidate unmarshal str

/-- The extractor `e` with captured token `t`, everything else unchanged. -/
def withJWT (e : Extractor) (t : GoString) : Extractor :=
  { e with authData := { e.authData with JWT := t } }

/-! ## Errors -/

/-- A Go `error` value: one returned by a library call, one made by
`fmt.Errorf` from a fixed message, or one made by `fmt.Errorf` with `%s`
arguments and a wrapped cause (`%w`). -/
inductive Error where
  | lib (msg : String) : Error
  | errorf (msg : String) (args : List GoString) : Error
  | wrap (msg : String) (args : List GoString) (cause : Error) : Error
deriving DecidableEq

/-! ## The browser page -/

/-- A selector handed to `page.Locator`. -/
abbrev Selector := String

/-- An action performed on the page. `Locator.Count` is a read and is not an
action. -/
inductive Action where
  | goto (url : GoString) : Action
  | fill (sel : Selector) (text : GoString) : Action
  | press (sel : Selector) (key : String) : Action
  | click (sel : Selector) : Action
  | sleep (ms : Nat) : Action
deriving DecidableEq

/-- The playwright page as the extractor uses it, over page states `P`.
`Count` is the count returned by `page.Locator(sel).Count()` (the callers drop
its error); `Fill`, `Press` and `Click` act on `page.Locator(sel)` and return
the library error, if any, and the next page state; `Sleep` is the page after
`time.Sleep` of so many milliseconds. -/
structure Browser (P : Type) where
  Goto : P → GoString → Option String × P
  URL : P → GoString
  Count : P → Selector → Int
  Fill : P → Selector → GoString → Option String × P
  Press : P → Selector → String → Option String × P
  Click : P → Selector → Option String × P
  Sleep : P → Nat → P

/-- A page state together with the actions performed so far. -/
structure Session (P : Type) where
  page : P
  trace : List Action

namespace Session

variable {P : Type}

/-- The call `loc.Fill(text)` on `page.Locator(sel)`. -/
def fill (b : Browser P) (s : Session P) (sel : Selector) (text : GoString) :
    Option Error × Session P :=
  ((b.Fill s.page sel text).1.map Error.lib,
   { page := (b.Fill s.page sel text).2, trace := s.trace ++ [Action.fill sel text] })

/-- The call `loc.Press(key)` on `page.Locator(sel)`. -/
def press (b : Browser P) (s : Session P) (sel : Selector) (key : String) :
    Option Error × Session P :=
  ((b.Press s.page sel key).1.map Error.lib,
   { page := (b.Press s.page sel key).2, trace := s.trace ++ [Action.press sel key] })

/-- The call `time.Sleep(ms * time.Millisecond)`. -/
def sleep (b : Browser P) (s : Session P) (ms : Nat) : Session P :=
  { page := b.Sleep s.page ms, trace := s.trace ++ [Action.sleep ms] }

/-- The call `page.Goto(url, ...)`; its options are not modelled. -/
def goto (b : Browser P) (s : Session P) (url : GoString) : Option Error × Session P :=
  ((b.Goto s.page url).1.map Error.lib,
   { page := (b.Goto s.page url).2, trace := s.trace ++ [Action.goto url] })

/-- The call `loc.Click()` on `page.Locator(sel)`. -/
def click (b : Browser P) (s : Session P) (sel : Selector) : Option Error × Session P :=
  ((b.Click s.page sel).1.map Error.lib,
   { page := (b.Click s.page sel).2, trace := s.trace ++ [Action.click sel] })

end Session

/-! ## Form helpers -/

/-- The local `selectors` of `fillEmail`. -/
def fillEmail.selectors : List Selector :=
  ["input[type='email']", "input#email", "input#signInName"]

/-- The loop of `fillEmail` over the remaining selectors. -/
def fillEmail.loop {P : Type} (b : Browser P) (e : Extractor) (s : Session P) :
    List Selector → Option Error × Session P
  | [] => (some (Error.errorf "email input not found" []), s)
  | sel :: rest =>
    if b.Count s.page sel > 0 then
      s.fill b sel e.username
    else
      fillEmail.loop b e s rest

/-- The Go method `Extractor.fillEmail`. -/
def fillEmail {P : Type} (b : Browser P) (e : Extractor) (s : Session P) :
    Option Error × Session P :=
  fillEmail.loop b e s fillEmail.selectors

/-- The local `selectors` of `fillPassword`. -/
def fillPassword.selectors : List Selector :=
  ["input[type='password']", "input#password"]

/-- The loop of `fillPassword` over the remaining selectors. -/
def fillPassword.loop {P : Type} (b : Browser P) (e : Extractor) (s : Session P) :
    List Selector → Option Error × Session P
  | [] => (some (Error.errorf "password input not found" []), s)
  | sel :: rest =>
    if b.Count s.page sel > 0 then
      s.fill b sel e.password
    else
      fillPassword.loop b e s rest

/-- The Go method `Extractor.fillPassword`. -/
def fillPassword {P : Type} (b : Browser P) (e : Extractor) (s : Session P) :
    Option Error × Session P :=
  fillPassword.loop b e s fillPassword.selectors

/-! ## Second factor -/

/-- The local `selectors` of `handle2FA`. -/
def handle2FA.selectors : List Selector :=
  ["input#otpCode", "input[name='code']", "input#totpCode"]

/-- The inner loop of `handle2FA`: the first selector with a positive count
on the current page, the `locator` that `goto FOUND` leaves set. -/
def handle2FA.scan {P : Type} (b : Browser P) (p : P) : List Selector → Option Selector
  | [] => none
  | sel :: rest => if b.Count p sel > 0 then some sel else handle2FA.scan b p rest

/-- The outer loop `for i := 0; i < 20; i++` of `handle2FA` with `n` rounds
left: a round without a match ends with a sleep of 500 ms. -/
def handle2FA.poll {P : Type} (b : Browser P) : Nat → Session P → Option Selector × Session P
  | 0, s => (none, s)
  | n + 1, s =>
    match handle2FA.scan b s.page handle2FA.selectors with
    | some sel => (some sel, s)
    | none => handle2FA.poll b n (s.sleep b 500)

/-- The Go method `Extractor.handle2FA`. -/
def handle2FA {P : Type} (b : Browser P) (e : Extractor) (s : Session P) :
    Option Error × Session P :=
  match handle2FA.poll b 20 s with
  | (none, s1) =>
    (some (Error.errorf "2FA input field not found after waiting 10 seconds" []), s1)
  | (some sel, s1) =>
    match s1.fill b sel e.totpToken with
    | (some err, s2) => (some (Error.wrap "failed to fill 2FA code: %w" [] err), s2)
    | (none, s2) => (none, ((s2.sleep b 500).press b sel "Enter").2)

/-- The page in polling round `r` of `handle2FA` started on page `p`: `r`
sleeps of 500 ms later. -/
def pollPage {P : Type} (b : Browser P) (p : P) (r : Nat) : P :=
  (fun q => b.Sleep q 500)^[r] p

/-! ## Submission -/

/-- The local `selectors` of `clickLoginButton`. -/
def clickLoginButton.selectors : List Selector :=
  ["button#next", "button[type='submit']", "button:has-text('Aanmelden')",
   "button:has-text('Sign in')", "button:has-text('Login')", "input[type='submit']"]

/-- The loop of `clickLoginButton` over the remaining selectors. -/
def clickLoginButton.loop {P : Type} (b : Browser P) (s : Session P) :
    List Selector → Option Error × Session P
  | [] => (some (Error.errorf "login button not found" []), s)
  | sel :: rest =>
    if b.Count s.page sel > 0 then
      s.click b sel
    else
      clickLoginButton.loop b s rest

/-- The Go method `Extractor.clickLoginButton`. -/
def clickLoginButton {P : Type} (b : Browser P) (s : Session P) : Option Error × Session P :=
  clickLoginButton.loop b s clickLoginButton.selectors

/-- The local `passwordSelectors` of `submitLoginForm`. -/
def submitLoginForm.passwordSelectors : List Selector :=
  ["input[type='password']", "input#password"]

/-- The loop of `submitLoginForm` over the remaining selectors: `true` when an
Enter press on a present selector returned no error; a failed press moves on
to the next selector. -/
def submitLoginForm.loop {P : Type} (b : Browser P) :
    List Selector → Session P → Bool × Session P
  | [], s => (false, s)
  | sel :: rest, s =>
    if b.Count s.page sel > 0 then
      match s.press b sel "Enter" with
      | (none, s1) => (true, s1)
      | (some _, s1) => submitLoginForm.loop b rest s1
    else
      submitLoginForm.loop b rest s

/-- The Go method `Extractor.submitLoginForm`. -/
def submitLoginForm {P : Type} (b : Browser P) (s : Session P) : Option Error × Session P :=
  match submitLoginForm.loop b submitLoginForm.passwordSelectors s with
  | (true, s1) => (none, s1)
  | (false, s1) => clickLoginButton b s1

/-! ## Login flow -/

/-- The loop `for i := 0; i < 30; i++` at the end of `executeLoginFlow`, with
`n` rounds left: it stops when the page URL contains the base URL and not
`b2clogin.com`, and sleeps one second otherwise. -/
def executeLoginFlow.awaitRedirect {P : Type} (b : Browser P) (e : Extractor) :
    Nat → Session P → Session P
  | 0, s => s
  | n + 1, s =>
    if strings.Contains (b.URL s.page) e.baseURL &&
        !strings.Contains (b.URL s.page) (gostr "b2clogin.com") then
      s
    else
      executeLoginFlow.awaitRedirect b e n (s.sleep b 1000)

/-- The part of `executeLoginFlow` from `Filling email...` on. -/
def executeLoginFlow.login {P : Type} (b : Browser P) (e : Extractor) (s : Session P) :
    Option Error × Session P :=
  match fillEmail b e s with
  | (some err, s1) => (some err, s1)
  | (none, s1) =>
    match fillPassword b e s1 with
    | (some err, s2) => (some err, s2)
    | (none, s2) =>
      match submitLoginForm b s2 with
      | (some err, s3) => (some err, s3)
      | (none, s3) =>
        match handle2FA b e (s3.sleep b 5000) with
        | (some err, s4) => (some err, s4)
        | (none, s4) => (none, executeLoginFlow.awaitRedirect b e 30 s4)

/-- The Go method `Extractor.executeLoginFlow`. -/
def executeLoginFlow {P : Type} (b : Browser P) (e : Extractor) (s : Session P) :
    Option Error × Session P :=
  match s.goto b e.baseURL with
  | (some err, s1) => (some (Error.wrap "failed to goto base URL: %w" [] err), s1)
  | (none, s1) =>
    if !strings.Contains (b.URL (s1.sleep b 1000).page) (gostr "b2clogin.com") &&
        !strings.Contains (b.URL (s1.sleep b 1000).page) (gostr "/Account/Login") then
      (none, s1.sleep b 1000)
    else if !strings.Contains (b.URL (s1.sleep b 1000).page) (gostr "b2clogin.com") then
      match (s1.sleep b 1000).goto b (e.baseURL ++ gostr "/Account/Login") with
      | (some err, s2) => (some (Error.wrap "goto login failed: %w" [] err), s2)
      | (none, s2) => executeLoginFlow.login b e (s2.sleep b 1000)
    else
      executeLoginFlow.login b e ((s1.sleep b 1000).sleep b 1000)

/-! ## Cookies and `Extract` -/

/-- The fields of `playwright.Cookie` that the extractor reads. -/
structure Cookie where
  Name : GoString
  Value : GoString
deriving DecidableEq

/-- The playwright browser context as the extractor uses it: `Cookies` is the
result of `context.Cookies()` when the page is in the given state. -/
structure BrowserContext (P : Type) where
  Cookies : P → Except String (List Cookie)

/-- The loop `for _, c := range cookies { e.authData.Cookies[c.Name] = c.Value }`. -/
def extractCookies.copy (m : GoMap GoString GoString) (cookies : List Cookie) :
    GoMap GoString GoString :=
  cookies.foldl (fun acc c => acc.set c.Name c.Value) m

/-- The Go method `Extractor.extractCookies`. -/
def extractCookies {P : Type} (ctx : BrowserContext P) (e : Extractor) (p : P) :
    Option Error × Extractor :=
  match ctx.Cookies p with
  | Except.error msg => (some (Error.lib msg), e)
  | Except.ok cookies =>
    (none,
     { e with authData :=
        { e.authData with Cookies := extractCookies.copy e.authData.Cookies cookies } })

/-- The Go method `Extractor.Extract`. The two listeners it installs call
`tryExtractJWT` and `extractTokenFromJSON` while the browser works:
`duringFlow` are the sightings delivered until `executeLoginFlow` returns,
`afterFlow` those delivered from then until `Extract` returns. They write
`authData.JWT` only, which `Extract` reads only for its closing log line. -/
def Extract {P : Type} (b : Browser P) (ctx : BrowserContext P) (unmarshal : Unmarshal)
    (duringFlow afterFlow : List Sighting) (e : Extractor) (s : Session P) :
    Option Error × Extractor × Session P :=
  match executeLoginFlow b e s with
  | (some err, s1) => (some err, applySightings unmarshal e duringFlow, s1)
  | (none, s1) =>
    match extractCookies ctx (applySightings unmarshal e duringFlow) s1.page with
    | (some err, e1) => (some err, e1, s1)
    | (none, e1) => (none, applySightings unmarshal e1 afterFlow, s1.sleep b 2000)

/-- The value of the last cookie in the list that carries the name. -/
def lastCookieValue (cookies : List Cookie) (name : GoString) : Option GoString :=
  (cookies.reverse.find? (fun c => decide (c.Name = name))).map (fun c => c.Value)

/-! ## `entity` -/

/-- A `uuid.UUID`, kept as its canonical text. -/
structure UUID where
  text : GoString
deriving DecidableEq

/-- The Go method `uuid.UUID.String`. -/
def UUID.String (u : UUID) : GoString := u.text

/-- The Go struct `entity.AtermesCredentials`. -/
structure AtermesCredentials where
  ID : UUID
  Email : GoString
  Password : GoString
  TwoFactorKey : GoString
  JWT : GoString
  JWTSet : Option Int
deriving DecidableEq

/-- The Go struct `entity.AtermesEnvironment`. -/
structure AtermesEnvironment where
  ID : UUID
  Tenant : GoString
  CredentialsID : UUID
  Credentials : AtermesCredentials
  InviteCreationType : GoString
  Enabled : Bool
  OrganisationID : Option UUID
deriving DecidableEq

/-! ## `service/jwt_service.go`: the world outside -/

/-- What the service does to the world outside, in order. `invoke` marks the
entry of `extractOneCredential`; the next seven are the browser resources
acquired and released; `updates` is the UPDATE statement issued by
`updateCredentialsJWT`; `sleep` is `time.Sleep`. -/
inductive Effect where
  | invoke (c : AtermesCredentials) (baseURL : GoString) : Effect
  | playwrightRun : Effect
  | chromiumLaunch : Effect
  | newContext : Effect
  | newPage : Effect
  | contextClose : Effect
  | browserClose : Effect
  | playwrightStop : Effect
  | updates (id : GoString) (jwt : GoString) : Effect
  | sleep (ms : Nat) : Effect
deriving DecidableEq

/-- The state outside the service: the rows of the credentials table and the
effects so far. -/
structure World where
  credentials : List AtermesCredentials
  trace : List Effect

/-- Record one effect. -/
def World.emit (w : World) (eff : Effect) : World :=
  { w with trace := w.trace ++ [eff] }

/-- The libraries and collaborators the service calls, each answering from the
current world: the query of `getAllEnabledEnvironments`, the order in which
`range` walks a map, the four steps that allocate the browser session
(`playwright.Run`, `Chromium.Launch`, `NewContext`, `NewPage`, each giving its
error if any), `totp.GenerateCode`, the run of `Extractor.Extract` on the fresh
session (its error, and the extractor afterwards), `time.Now`, and the error
of the UPDATE statement. -/
structure Externals where
  Find : World → Except String (List AtermesEnvironment)
  mapRange : GoMap GoString Nat → List (GoString × Nat)
  Run : World → Option String
  Launch : World → Option String
  NewContext : World → Option String
  NewPage : World → Option String
  GenerateCode : World → GoString → Except String GoString
  Extract : World → Extractor → Option Error × Extractor
  Now : World → Int
  Updates : World → GoString → GoString → Option String

/-- The Go method `Extractor.GetAuthData`. -/
def GetAuthData (e : Extractor) (now : Int) : AuthData :=
  { e.authData with Timestamp := now }

/-- The Go method `JWTService.getAllEnabledEnvironments`. -/
def getAllEnabledEnvironments (x : Externals) (w : World) :
    Except Error (List AtermesEnvironment) :=
  match x.Find w with
  | Except.error msg => Except.error (Error.lib msg)
  | Except.ok envs => Except.ok envs

/-- The Go method `JWTService.updateCredentialsJWT`: the statement is issued;
when it succeeds, every row with that id gets the token and the time. -/
def updateCredentialsJWT (x : Externals) (w : World) (id jwt : GoString) :
    Option Error × World :=
  match x.Updates w id jwt with
  | some msg => (some (Error.lib msg), w.emit (Effect.updates id jwt))
  | none =>
    (none,
     { credentials := w.credentials.map (fun c =>
         if c.ID.String = id then { c with JWT := jwt, JWTSet := some (x.Now w) } else c),
       trace := w.trace ++ [Effect.updates id jwt] })

/-! ## One credential -/

/-- The part of `extractOneCredential` after the page is created: the TOTP
code, the extractor, `Extract`, the empty-token test and the store update. -/
def extractOneCredential.withPage (x : Externals) (w : World) (c : AtermesCredentials)
    (baseURL : GoString) : Option Error × World :=
  match x.GenerateCode w c.TwoFactorKey with
  | Except.error msg =>
    (some (Error.wrap "failed to generate TOTP for %s: %w" [c.Email] (Error.lib msg)), w)
  | Except.ok totpCode =>
    match x.Extract w (NewExtractor baseURL c.Email c.Password c.TwoFactorKey totpCode) with
    | (some err, _) => (some (Error.wrap "extract failed for %s: %w" [c.Email] err), w)
    | (none, extractor) =>
      if (GetAuthData extractor (x.Now w)).JWT = [] then
        (some (Error.errorf "no JWT found for %s" [c.Email]), w)
      else
        match updateCredentialsJWT x w c.ID.String (GetAuthData extractor (x.Now w)).JWT with
        | (some err, w1) => (some (Error.wrap "failed storing JWT: %w" [] err), w1)
        | (none, w1) => (none, w1)

/-- The part of `extractOneCredential` between `browser.NewContext()` and the
deferred `context.Close()`. -/
def extractOneCredential.withBrowser (x : Externals) (w : World) (c : AtermesCredentials)
    (baseURL : GoString) : Option Error × World :=
  match x.NewContext w with
  | some msg => (some (Error.wrap "failed creating context: %w" [] (Error.lib msg)), w)
  | none =>
    match x.NewPage (w.emit Effect.newContext) with
    | some msg =>
      (some (Error.wrap "failed creating page: %w" [] (Error.lib msg)),
       (w.emit Effect.newContext).emit Effect.contextClose)
    | none =>
      ((extractOneCredential.withPage x ((w.emit Effect.newContext).emit Effect.newPage)
          c baseURL).1,
       (extractOneCredential.withPage x ((w.emit Effect.newContext).emit Effect.newPage)
          c baseURL).2.emit Effect.contextClose)

/-- The part of `extractOneCredential` between `pw.Chromium.Launch` and the
deferred `browser.Close()`. -/
def extractOneCredential.withPlaywright (x : Externals) (w : World) (c : AtermesCredentials)
    (baseURL : GoString) : Option Error × World :=
  match x.Launch w with
  | some msg => (some (Error.wrap "could not launch browser: %w" [] (Error.lib msg)), w)
  | none =>
    ((extractOneCredential.withBrowser x (w.emit Effect.chromiumLaunch) c baseURL).1,
     (extractOneCredential.withBrowser x (w.emit Effect.chromiumLaunch) c baseURL).2.emit
       Effect.browserClose)

/-- The Go method `JWTService.extractOneCredential`. -/
def extractOneCredential (x : Externals) (w : World) (c : AtermesCredentials)
    (baseURL : GoString) : Option Error × World :=
  match x.Run (w.emit (Effect.invoke c baseURL)) with
  | some msg =>
    (some (Error.wrap "failed to start Playwright: %w" [] (Error.lib msg)),
     w.emit (Effect.invoke c baseURL))
  | none =>
    ((extractOneCredential.withPlaywright x
        ((w.emit (Effect.invoke c baseURL)).emit Effect.playwrightRun) c baseURL).1,
     (extractOneCredential.withPlaywright x
        ((w.emit (Effect.invoke c baseURL)).emit Effect.playwrightRun) c baseURL).2.emit
       Effect.playwrightStop)

/-! ## All credentials -/

/-- How the loop variable `env` of `for _, env := range envs` is allocated:
one variable per iteration (modules that declare `go 1.22` or later), or one
variable shared by all iterations (earlier language versions). The `go`
directive lives in `go.mod`. -/
inductive LoopVar where
  | perIteration : LoopVar
  | shared : LoopVar
deriving DecidableEq

/-- The instance of `env` that `&env.Credentials` points into, in iteration
`i`. -/
def LoopVar.cell (sem : LoopVar) (i : Nat) : Nat :=
  match sem with
  | LoopVar.perIteration => i
  | LoopVar.shared => 0

/-- The instances of `env` once the loop over a list of environments is over:
one per element, or the single variable holding the last element. -/
def LoopVar.cells (sem : LoopVar) (envs : List AtermesEnvironment) : List AtermesEnvironment :=
  match sem with
  | LoopVar.perIteration => envs
  | LoopVar.shared => envs.getLast?.toList

/-- The zero value of `entity.AtermesCredentials`. -/
def AtermesCredentials.zero : AtermesCredentials :=
  { ID := { text := [] }, Email := [], Password := [], TwoFactorKey := [], JWT := [],
    JWTSet := none }

/-- The credentials a pointer `&env.Credentials` leads to after the loop. -/
def deref (cells : List AtermesEnvironment) (ptr : Nat) : AtermesCredentials :=
  match cells[ptr]? with
  | some env => env.Credentials
  | none => AtermesCredentials.zero

/-- The first loop of `ExtractJWTForAllCredentials`, at iteration `i` over the
remaining environments: an id not yet in `credentialMap` gets the pointer to
this iteration's `env.Credentials` and this environment's tenant. -/
def ExtractJWTForAllCredentials.group (sem : LoopVar) :
    Nat → List AtermesEnvironment → GoMap GoString Nat × GoMap GoString GoString →
      GoMap GoString Nat × GoMap GoString GoString
  | _, [], maps => maps
  | i, env :: rest, (credentialMap, credentialToTenant) =>
    match credentialMap.get env.Credentials.ID.String with
    | some _ =>
      ExtractJWTForAllCredentials.group sem (i + 1) rest (credentialMap, credentialToTenant)
    | none =>
      ExtractJWTForAllCredentials.group sem (i + 1) rest
        (credentialMap.set env.Credentials.ID.String (sem.cell i),
         credentialToTenant.set env.Credentials.ID.String env.Tenant)

/-- The base URL `fmt.Sprintf("https://%s.atermes.nl", tenant)`. -/
def tenantBaseURL (tenant : GoString) : GoString :=
  gostr "https://" ++ tenant ++ gostr ".atermes.nl"

/-- The second loop of `ExtractJWTForAllCredentials` over the remaining map
entries: a failed credential is skipped with `continue`, a successful one is
followed by a sleep of one second. -/
def ExtractJWTForAllCredentials.process (x : Externals) (cells : List AtermesEnvironment)
    (credentialToTenant : GoMap GoString GoString) : List (GoString × Nat) → World → World
  | [], w => w
  | (credID, ptr) :: rest, w =>
    match extractOneCredential x w (deref cells ptr)
        (tenantBaseURL ((credentialToTenant.get credID).getD [])) with
    | (some _, w1) => ExtractJWTForAllCredentials.process x cells credentialToTenant rest w1
    | (none, w1) =>
      ExtractJWTForAllCredentials.process x cells credentialToTenant rest
        (w1.emit (Effect.sleep 1000))

/-- The Go method `JWTService.ExtractJWTForAllCredentials`. -/
def ExtractJWTForAllCredentials (sem : LoopVar) (x : Externals) (w : World) :
    Option Error × World :=
  match getAllEnabledEnvironments x w with
  | Except.error err => (some err, w)
  | Except.ok envs =>
    if envs.length = 0 then
      (some (Error.errorf "no enabled environments found" []), w)
    else
      (none,
       ExtractJWTForAllCredentials.process x (sem.cells envs)
         (ExtractJWTForAllCredentials.group sem 0 envs ([], [])).2
         (x.mapRange (ExtractJWTForAllCredentials.group sem 0 envs ([], [])).1) w)

/-! ## Reading a trace -/

/-- The invocations of `extractOneCredential` in a trace: the credential
record and the base URL of each, in order. -/
def invocations (t : List Effect) : List (AtermesCredentials × GoString) :=
  t.filterMap (fun eff =>
    match eff with
    | Effect.invoke c baseURL => some (c, baseURL)
    | _ => none)

/-- The store updates requested in a trace: the id and the token of each, in
order. -/
def updateRequests (t : List Effect) : List (GoString × GoString) :=
  t.filterMap (fun eff =>
    match eff with
    | Effect.updates id jwt => some (id, jwt)
    | _ => none)

/-- The credential ids of a list of bindings, in list order. -/
def credentialIDs (envs : List AtermesEnvironment) : List GoString :=
  envs.map (fun env => env.Credentials.ID.String)

/-- The first binding in list order that carries the credential id. -/
def firstBinding (envs : List AtermesEnvironment) (id : GoString) : Option AtermesEnvironment :=
  envs.find? (fun env => decide (env.Credentials.ID.String = id))

/-- The effects of `extractOneCredential` up to the creation of the page, in
order, after the entry mark. -/
def sessionSteps : List Effect :=
  [Effect.playwrightRun, Effect.chromiumLaunch, Effect.newContext, Effect.newPage]

/-- The world of `extractOneCredential` for credential `c` started in `w`,
after the entry mark and the first `k` session steps. -/
def World.during (w : World) (c : AtermesCredentials) (baseURL : GoString) (k : Nat) : World :=
  { w with trace := w.trace ++ Effect.invoke c baseURL :: sessionSteps.take k }

/-- The invariant of the first loop of `ExtractJWTForAllCredentials` once the
bindings `done` have been visited: the keys of `credentialMap` are pairwise
distinct and are the ids seen so far; with one `env` per iteration the pointer
stored for an id leads to the first binding carrying it; `credentialToTenant`
holds the tenant of that first binding. -/
def GroupInv (sem : LoopVar) (done : List AtermesEnvironment)
    (maps : GoMap GoString Nat × GoMap GoString GoString) : Prop :=
  (maps.1.map Prod.fst).Nodup ∧
  (∀ id, id ∈ maps.1.map Prod.fst ↔ id ∈ credentialIDs done) ∧
  (∀ id ptr, (id, ptr) ∈ maps.1 → sem = LoopVar.perIteration →
    done[ptr]? = firstBinding done id) ∧
  (∀ id, maps.2.get id = (firstBinding done id).map (fun env => env.Tenant))

/-- The trace `t` extends the trace of `w` to that of `w1` without any entry
into `extractOneCredential`. -/
def Quiet (w w1 : World) : Prop :=
  ∃ t, w1.trace = w.trace ++ t ∧ invocations t = []

/-! ## Sample inputs -/

/-- An extractor right after construction. -/
def sampleExtractor : Extractor :=
  NewExtractor (gostr "https://demo.atermes.nl") (gostr "a@b.nl") (gostr "pw") (gostr "SEED")
    (gostr "123456")

/-- A decoder that knows one body, an object with a short `token` and a long
`jwt`, and rejects every other input. -/
def sampleUnmarshal : Unmarshal := fun str =>
  if str = gostr "body" then
    some [(gostr "token", JSONValue.string (gostr "short")),
          (gostr "jwt", JSONValue.string (List.replicate 21 120)),
          (gostr "id_token", JSONValue.string (List.replicate 30 121))]
  else none

/-- A page whose state is the time elapsed in milliseconds: `input#email` is
always there (twice), `input[name='code']` appears after one second, no other
selector ever matches; `Fill` succeeds or fails as `fillOk` says and `Press`
always fails. -/
def scriptedBrowser (fillOk : Bool) : Browser Nat where
  Goto := fun p _ => (none, p)
  URL := fun _ => []
  Count := fun p sel =>
    if sel = "input#email" then 2
    else if sel = "input[name='code']" ∧ 1000 ≤ p then 1
    else 0
  Fill := fun p _ _ => (if fillOk then none else some "element is not editable", p)
  Press := fun p _ _ => (some "element is detached", p)
  Click := fun p _ => (none, p)
  Sleep := fun p ms => p + ms

/-- The credential record number `n`. -/
def sampleCredentials (n : UInt8) : AtermesCredentials :=
  { ID := { text := [n] }, Email := [n], Password := gostr "pw", TwoFactorKey := gostr "SEED",
    JWT := [], JWTSet := none }

/-- An enabled binding of the tenant to credential number `n`. -/
def sampleEnvironment (tenant : String) (n : UInt8) : AtermesEnvironment :=
  { ID := { text := gostr tenant }, Tenant := gostr tenant, CredentialsID := { text := [n] },
    Credentials := sampleCredentials n, InviteCreationType := [], Enabled := true,
    OrganisationID := none }

/-- Three enabled bindings: credential 1 is bound to `alpha` and to `gamma`,
credential 2 to `beta`. -/
def sampleEnvs : List AtermesEnvironment :=
  [sampleEnvironment "alpha" 1, sampleEnvironment "beta" 2, sampleEnvironment "gamma" 1]

/-- A world outside in which the store returns `envs`, maps are walked in
reverse insertion order, every session is allocated, the TOTP code is `123456`,
`Extract` times out on 2FA for credential 2 and captures a token of 60 bytes
for every other credential, and every UPDATE succeeds. -/
def sampleExternals (envs : List AtermesEnvironment) : Externals where
  Find := fun _ => Except.ok envs
  mapRange := fun m => m.reverse
  Run := fun _ => none
  Launch := fun _ => none
  NewContext := fun _ => none
  NewPage := fun _ => none
  GenerateCode := fun _ _ => Except.ok (gostr "123456")
  Extract := fun _ e =>
    if e.username = [2] then
      (some (Error.errorf "2FA input field not found after waiting 10 seconds" []), e)
    else (none, withJWT e (List.replicate 60 65))
  Now := fun _ => 1700000000
  Updates := fun _ _ _ => none

/-- A credentials table with records 1 and 2 and no effect yet. -/
def sampleWorld : World :=
  { credentials := [sampleCredentials 1, sampleCredentials 2], trace := [] }

/-- A page that is already on the tenant's dashboard: every navigation
succeeds and the URL stays on the dashboard; no selector matches. -/
def dashboardBrowser : Browser Nat where
  Goto := fun p _ => (none, p)
  URL := fun _ => gostr "https://demo.atermes.nl/dashboard"
  Count := fun _ _ => 0
  Fill := fun p _ _ => (none, p)
  Press := fun p _ _ => (none, p)
  Click := fun p _ => (none, p)
  Sleep := fun p ms => p + ms

/-- A browser context holding the given cookies. -/
def cookieContext (cookies : List Cookie) : BrowserContext Nat where
  Cookies := fun _ => Except.ok cookies

/-- A browser context whose cookies cannot be read. -/
def closedContext : BrowserContext Nat where
  Cookies := fun _ => Except.error "target closed"

/-- Two cookies named `sid`, as set for two different domains, and one named
`lang`. -/
def sampleCookies : List Cookie :=
  [{ Name := gostr "sid", Value := gostr "A" }, { Name := gostr "lang", Value := gostr "nl" },
   { Name := gostr "sid", Value := gostr "B" }]

/-! # Theorems -/

/-! ## Strings -/

theorem strings.HasPrefix_append (p t : GoString) : strings.HasPrefix (p ++ t) p = true := by
  simp [strings.HasPrefix]

theorem strings.TrimPrefix_append (p t : GoString) : strings.TrimPrefix (p ++ t) p = t := by
  simp [strings.TrimPrefix, strings.HasPrefix_append]

theorem strings.TrimPrefix_of_not_HasPrefix (s p : GoString)
    (h : strings.HasPrefix s p = false) : strings.TrimPrefix s p = s := by
  simp [strings.TrimPrefix, h]

/-! ## Header path -/

theorem tryExtractJWT_eq (e : Extractor) (h : GoString) :
    tryExtractJWT e h =
      match headerCandidate h with
      | some t => withJWT e t
      | none => e := by
  unfold tryExtractJWT headerCandidate withJWT
  by_cases hl : 50 < (strings.TrimPrefix h (gostr "Bearer ")).length
  · simp [hl]
  · simp [hl]

/-- C1. Header path round trip: for a token `t` longer than 50 bytes,
`tryExtractJWT` on `"Bearer " + t` sets the captured token to exactly `t` and
changes nothing else; for `t` of at most 50 bytes the extractor (captured
token and cookies included) is unchanged. -/
theorem tryExtractJWT_bearer_roundtrip (e : Extractor) (t : GoString) :
    (50 < t.length →
      tryExtractJWT e (gostr "Bearer " ++ t) = withJWT e t ∧
      (tryExtractJWT e (gostr "Bearer " ++ t)).authData.JWT = t ∧
      (tryExtractJWT e (gostr "Bearer " ++ t)).authData.Cookies = e.authData.Cookies) ∧
    (t.length ≤ 50 → tryExtractJWT e (gostr "Bearer " ++ t) = e) := by
  constructor
  · intro h
    have : tryExtractJWT e (gostr "Bearer " ++ t) = withJWT e t := by
      simp [tryExtractJWT, strings.TrimPrefix_append, h, withJWT]
    rw [this]
    exact ⟨rfl, rfl, rfl⟩
  · intro h
    simp [tryExtractJWT, strings.TrimPrefix_append, Nat.not_lt.mpr h]

theorem tryExtractJWT_bearer_roundtrip_witness :
    (tryExtractJWT sampleExtractor (gostr "Bearer " ++ List.replicate 51 65)).authData.JWT
        = List.replicate 51 65 ∧
    tryExtractJWT sampleExtractor (gostr "Bearer " ++ List.replicate 50 65) = sampleExtractor :=
  ⟨((tryExtractJWT_bearer_roundtrip sampleExtractor (List.replicate 51 65)).1 (by decide)).2.1,
   (tryExtractJWT_bearer_roundtrip sampleExtractor (List.replicate 50 65)).2 (by decide)⟩

/-- C6, as stated, fails: the header value `Basic ` followed by 60 bytes does
not start with `Bearer `, and `tryExtractJWT` replaces the captured token by
the whole header value. -/
theorem tryExtractJWT_unprefixed_counterexample :
    strings.HasPrefix (gostr "Basic " ++ List.replicate 60 65) (gostr "Bearer ") = false ∧
    (tryExtractJWT sampleExtractor (gostr "Basic " ++ List.replicate 60 65)).authData.JWT
      = gostr "Basic " ++ List.replicate 60 65 ∧
    (tryExtractJWT sampleExtractor (gostr "Basic " ++ List.replicate 60 65)).authData.JWT
      ≠ sampleExtractor.authData.JWT := by
  decide

/-- C6, amended. `tryExtractJWT` removes one leading `Bearer ` when there is
one and tests the length of what remains: a header value that does not start
with `Bearer ` leaves the extractor unchanged when it has at most 50 bytes, and
becomes the captured token, whole, when it has more than 50 bytes; for every
header value, the captured token changes only to that remainder and only when
the remainder is longer than 50 bytes. -/
theorem tryExtractJWT_unprefixed (e : Extractor) (h : GoString) :
    (strings.HasPrefix h (gostr "Bearer ") = false →
      (h.length ≤ 50 → tryExtractJWT e h = e) ∧
      (50 < h.length → tryExtractJWT e h = withJWT e h)) ∧
    (tryExtractJWT e h ≠ e →
      50 < (strings.TrimPrefix h (gostr "Bearer ")).length ∧
      tryExtractJWT e h = withJWT e (strings.TrimPrefix h (gostr "Bearer "))) := by
  constructor
  · intro hp
    have ht := strings.TrimPrefix_of_not_HasPrefix h (gostr "Bearer ") hp
    constructor
    · intro hl
      simp [tryExtractJWT, ht, Nat.not_lt.mpr hl]
    · intro hl
      simp [tryExtractJWT, ht, hl, withJWT]
  · intro hne
    by_cases hl : 50 < (strings.TrimPrefix h (gostr "Bearer ")).length
    · exact ⟨hl, by simp [tryExtractJWT, hl, withJWT]⟩
    · exact absurd (by simp [tryExtractJWT, hl]) hne

theorem tryExtractJWT_unprefixed_witness :
    tryExtractJWT sampleExtractor (gostr "Basic " ++ List.replicate 60 65)
      = withJWT sampleExtractor (gostr "Basic " ++ List.replicate 60 65) ∧
    tryExtractJWT sampleExtractor (gostr "Basic abc") = sampleExtractor :=
  ⟨((tryExtractJWT_unprefixed sampleExtractor (gostr "Basic " ++ List.replicate 60 65)).1
      (by decide)).2 (by decide),
   ((tryExtractJWT_unprefixed sampleExtractor (gostr "Basic abc")).1 (by decide)).1 (by decide)⟩

/-! ## Body path -/

theorem extractTokenFromJSON.loop_eq (data : GoMap GoString JSONValue) (e : Extractor)
    (ks : List GoString) :
    extractTokenFromJSON.loop data e ks =
      match ks.findSome? (keyCandidate data) with
      | some s => withJWT e s
      | none => e := by
  induction ks with
  | nil => rfl
  | cons key rest ih =>
    unfold extractTokenFromJSON.loop
    rw [List.findSome?_cons]
    unfold keyCandidate
    cases hg : data.get key with
    | none => simpa using ih
    | some v =>
      cases v with
      | string s =>
        by_cases hl : 20 < s.length
        · simp [hl, withJWT]
        · simpa [hl] using ih
      | null => simpa using ih
      | bool b => simpa using ih
      | number l => simpa using ih
      | array l => simpa using ih
      | object l => simpa using ih

theorem extractTokenFromJSON_eq (unmarshal : Unmarshal) (e : Extractor) (str : GoString) :
    extractTokenFromJSON unmarshal e str =
      match bodyCandidate unmarshal str with
      | some s => withJWT e s
      | none => e := by
  unfold extractTokenFromJSON bodyCandidate
  cases unmarshal str with
  | none => rfl
  | some data => exact extractTokenFromJSON.loop_eq data e tokenKeys

theorem keyCandidate_eq_some (data : GoMap GoString JSONValue) (key s : GoString) :
    keyCandidate data key = some s ↔ data.get key = some (JSONValue.string s) ∧ 20 < s.length := by
  unfold keyCandidate
  cases hg : data.get key with
  | none => simp
  | some v =>
    cases v with
    | string t =>
      by_cases hl : 20 < t.length
      · simp only [hl, if_true, Option.some.injEq, JSONValue.string.injEq]
        constructor
        · intro h; subst h; exact ⟨rfl, hl⟩
        · intro h; exact h.1
      · simp only [hl, if_false, Option.some.injEq, JSONValue.string.injEq]
        constructor
        · intro h; cases h
        · intro h; exact absurd (h.1 ▸ h.2) hl
    | null => simp
    | bool b => simp
    | number l => simp
    | array l => simp
    | object l => simp

theorem keyCandidate_eq_none (data : GoMap GoString JSONValue) (key : GoString) :
    keyCandidate data key = none ↔
      ∀ s, data.get key = some (JSONValue.string s) → s.length ≤ 20 := by
  constructor
  · intro h s hs
    by_contra hl
    have := (keyCandidate_eq_some data key s).2 ⟨hs, Nat.lt_of_not_le hl⟩
    rw [h] at this
    cases this
  · intro h
    cases hc : keyCandidate data key with
    | none => rfl
    | some s =>
      have := (keyCandidate_eq_some data key s).1 hc
      exact absurd (h s this.1) (Nat.not_le.mpr this.2)

theorem findSome?_of_first {α β : Type} (f : α → Option β) :
    ∀ (l : List α) (i : Nat) (a : α) (b : β), l[i]? = some a → f a = some b →
      (∀ j a', j < i → l[j]? = some a' → f a' = none) → l.findSome? f = some b := by
  intro l
  induction l with
  | nil => intro i a b h; simp at h
  | cons x xs ih =>
    intro i a b h hf hbefore
    cases i with
    | zero =>
      simp only [List.getElem?_cons_zero, Option.some.injEq] at h
      subst h
      simp [List.findSome?_cons, hf]
    | succ i =>
      have hx : f x = none := hbefore 0 x (Nat.succ_pos i) (by simp)
      rw [List.findSome?_cons, hx]
      simp only [List.getElem?_cons_succ] at h
      exact ih i a b h hf (fun j a' hj hj' => hbefore (j + 1) a' (Nat.succ_lt_succ hj) (by simpa using hj'))

/-- C2. Body path key probe: when the body decodes to an object `data`, the
captured token becomes the value of the first key among `token`,
`access_token`, `jwt`, `id_token` whose value is a string longer than 20
bytes, whatever the later keys hold, and nothing else changes; when no key has
such a value, or the body does not decode, the extractor (captured token and
cookies) is unchanged. -/
theorem extractTokenFromJSON_key_probe (unmarshal : Unmarshal) (e : Extractor) (str : GoString) :
    (∀ data, unmarshal str = some data →
      (∀ (i : Nat) (key s : GoString), tokenKeys[i]? = some key →
          data.get key = some (JSONValue.string s) → 20 < s.length →
          (∀ (j : Nat) (key' s' : GoString), j < i → tokenKeys[j]? = some key' →
              data.get key' = some (JSONValue.string s') → s'.length ≤ 20) →
          extractTokenFromJSON unmarshal e str = withJWT e s ∧
          (extractTokenFromJSON unmarshal e str).authData.JWT = s ∧
          (extractTokenFromJSON unmarshal e str).authData.Cookies = e.authData.Cookies) ∧
      ((∀ (key s : GoString), key ∈ tokenKeys →
          data.get key = some (JSONValue.string s) → s.length ≤ 20) →
          extractTokenFromJSON unmarshal e str = e)) ∧
    (unmarshal str = none → extractTokenFromJSON unmarshal e str = e) := by
  refine ⟨fun data hd => ⟨?_, ?_⟩, ?_⟩
  · intro i key s hi hg hl hbefore
    have hfind : tokenKeys.findSome? (keyCandidate data) = some s :=
      findSome?_of_first (keyCandidate data) tokenKeys i key s hi
        ((keyCandidate_eq_some data key s).2 ⟨hg, hl⟩)
        (fun j key' hj hj' => (keyCandidate_eq_none data key').2
          (fun s' hs' => hbefore j key' s' hj hj' hs'))
    have : extractTokenFromJSON unmarshal e str = withJWT e s := by
      rw [extractTokenFromJSON_eq]
      simp [bodyCandidate, hd, hfind]
    rw [this]
    exact ⟨rfl, rfl, rfl⟩
  · intro hnone
    have hfind : tokenKeys.findSome? (keyCandidate data) = none := by
      rw [List.findSome?_eq_none_iff]
      intro key hk
      exact (keyCandidate_eq_none data key).2 (fun s hs => hnone key s hk hs)
    rw [extractTokenFromJSON_eq]
    simp [bodyCandidate, hd, hfind]
  · intro hn
    simp [extractTokenFromJSON, hn]

/-- C2 at a concrete body: `token` is too short, `jwt` is the first key that
qualifies, `id_token` qualifies too and is ignored; an undecodable body changes
nothing. -/
theorem extractTokenFromJSON_key_probe_witness :
    (extractTokenFromJSON sampleUnmarshal sampleExtractor (gostr "body")).authData.JWT
        = List.replicate 21 120 ∧
    extractTokenFromJSON sampleUnmarshal sampleExtractor (gostr "other") = sampleExtractor :=
  ⟨(((extractTokenFromJSON_key_probe sampleUnmarshal sampleExtractor (gostr "body")).1
      _ rfl).1 2 (gostr "jwt") (List.replicate 21 120) (by decide) rfl (by decide)
      (by
        intro j key' s' hj hk hg
        match j, hj with
        | 0, _ =>
          have hk' : key' = gostr "token" := by
            simpa [tokenKeys] using hk.symm
          subst hk'
          have h2 : GoMap.get
              [(gostr "token", JSONValue.string (gostr "short")),
               (gostr "jwt", JSONValue.string (List.replicate 21 120)),
               (gostr "id_token", JSONValue.string (List.replicate 30 121))]
              (gostr "token") = some (JSONValue.string (gostr "short")) := rfl
          rw [h2] at hg
          injection hg with hg
          injection hg with hg
          subst hg
          decide
        | 1, _ =>
          have hk' : key' = gostr "access_token" := by
            simpa [tokenKeys] using hk.symm
          subst hk'
          have h2 : GoMap.get
              [(gostr "token", JSONValue.string (gostr "short")),
               (gostr "jwt", JSONValue.string (List.replicate 21 120)),
               (gostr "id_token", JSONValue.string (List.replicate 30 121))]
              (gostr "access_token") = none := rfl
          rw [h2] at hg
          cases hg)).2.1,
   (extractTokenFromJSON_key_probe sampleUnmarshal sampleExtractor (gostr "other")).2 rfl⟩

/-! ## Sequences of sightings -/

theorem withJWT_withJWT (e : Extractor) (a b : GoString) :
    withJWT (withJWT e a) b = withJWT e b := rfl

theorem applySighting_eq (unmarshal : Unmarshal) (e : Extractor) (s : Sighting) :
    applySighting unmarshal e s =
      match s.candidate unmarshal with
      | some t => withJWT e t
      | none => e := by
  cases s with
  | header value => exact tryExtractJWT_eq e value
  | body str => exact extractTokenFromJSON_eq unmarshal e str

theorem applySightings_append (unmarshal : Unmarshal) (e : Extractor) (xs ys : List Sighting) :
    applySightings unmarshal e (xs ++ ys) =
      applySightings unmarshal (applySightings unmarshal e xs) ys := by
  simp [applySightings, List.foldl_append]

theorem applySightings_of_none (unmarshal : Unmarshal) (ss : List Sighting) :
    ∀ (e : Extractor), (∀ s ∈ ss, s.candidate unmarshal = none) →
      applySightings unmarshal e ss = e := by
  induction ss with
  | nil => intro e _; rfl
  | cons s rest ih =>
    intro e h
    have hs : applySighting unmarshal e s = e := by
      rw [applySighting_eq, h s (List.mem_cons_self s rest)]
    have : applySightings unmarshal e (s :: rest) =
        applySightings unmarshal (applySighting unmarshal e s) rest := rfl
    rw [this, hs]
    exact ih e (fun s' hs' => h s' (List.mem_cons_of_mem s hs'))

theorem applySightings_cases (unmarshal : Unmarshal) (ss : List Sighting) :
    ∀ (e : Extractor), applySightings unmarshal e ss = e ∨
      ∃ s ∈ ss, ∃ t, s.candidate unmarshal = some t ∧
        applySightings unmarshal e ss = withJWT e t := by
  induction ss using List.reverseRecOn with
  | nil => intro e; exact Or.inl rfl
  | append_singleton rest s ih =>
    intro e
    have hstep : applySightings unmarshal e (rest ++ [s]) =
        applySighting unmarshal (applySightings unmarshal e rest) s := by
      rw [applySightings_append]; rfl
    rw [hstep, applySighting_eq]
    cases hc : s.candidate unmarshal with
    | none =>
      rcases ih e with h | ⟨s', hs', t, ht, h⟩
      · exact Or.inl h
      · exact Or.inr ⟨s', List.mem_append_left _ hs', t, ht, h⟩
    | some t =>
      refine Or.inr ⟨s, by simp, t, hc, ?_⟩
      rcases ih e with h | ⟨s', _, t', _, h⟩
      · simp only [h]
      · simp only [h, withJWT_withJWT]

theorem Sighting.candidate_length (unmarshal : Unmarshal) (s : Sighting) (t : GoString)
    (h : s.candidate unmarshal = some t) : 20 < t.length := by
  cases s with
  | header value =>
    simp only [Sighting.candidate, headerCandidate] at h
    split at h
    · rename_i hl
      injection h with h
      subst h
      omega
    · cases h
  | body str =>
    simp only [Sighting.candidate, bodyCandidate] at h
    cases hu : unmarshal str with
    | none => rw [hu] at h; cases h
    | some data =>
      rw [hu] at h
      obtain ⟨key, _, hk⟩ := List.exists_of_findSome?_eq_some h
      exact ((keyCandidate_eq_some data key t).1 hk).2

/-- C7. Last write wins, with no partial value: after any finite sequence of
header and body sightings applied one after another, the captured token is the
candidate of the last sighting that qualifies, whichever path produced it, and
nothing else has changed; it is the initial token (the extractor is unchanged)
when no sighting qualifies; a non-empty token is never reset to empty; and at
every point of the sequence the token is the initial one or the complete
candidate of one of the sightings seen so far. -/
theorem applySightings_last_write_wins (unmarshal : Unmarshal) (e : Extractor)
    (ss : List Sighting) :
    (∀ (before after : List Sighting) (s : Sighting) (t : GoString),
        ss = before ++ s :: after → s.candidate unmarshal = some t →
        (∀ s' ∈ after, s'.candidate unmarshal = none) →
        applySightings unmarshal e ss = withJWT e t ∧
        (applySightings unmarshal e ss).authData.JWT = t) ∧
    ((∀ s ∈ ss, s.candidate unmarshal = none) → applySightings unmarshal e ss = e) ∧
    (∀ (before after : List Sighting), ss = before ++ after →
        (applySightings unmarshal e before).authData.JWT ≠ [] →
        (applySightings unmarshal e ss).authData.JWT ≠ []) ∧
    (∀ (n : Nat),
        (applySightings unmarshal e (ss.take n)).authData.JWT = e.authData.JWT ∨
        ∃ s ∈ ss.take n,
          s.candidate unmarshal = some (applySightings unmarshal e (ss.take n)).authData.JWT) := by
  refine ⟨?_, applySightings_of_none unmarshal ss e, ?_, ?_⟩
  · intro before after s t hss hc hafter
    have h1 : applySightings unmarshal e ss =
        applySightings unmarshal
          (applySighting unmarshal (applySightings unmarshal e before) s) after := by
      rw [hss, applySightings_append]; rfl
    have h2 : applySighting unmarshal (applySightings unmarshal e before) s = withJWT e t := by
      rw [applySighting_eq, hc]
      rcases applySightings_cases unmarshal before e with h | ⟨_, _, t', _, h⟩
      · simp only [h]
      · simp only [h, withJWT_withJWT]
    rw [h1, h2, applySightings_of_none unmarshal after _ hafter]
    exact ⟨rfl, rfl⟩
  · intro before after hss hne
    rw [hss, applySightings_append]
    rcases applySightings_cases unmarshal after (applySightings unmarshal e before) with
      h | ⟨s, _, t, ht, h⟩
    · rw [h]; exact hne
    · rw [h]
      have hl := Sighting.candidate_length unmarshal s t ht
      intro h0
      have : t = [] := h0
      rw [this] at hl
      simp at hl
  · intro n
    rcases applySightings_cases unmarshal (ss.take n) e with h | ⟨s, hs, t, ht, h⟩
    · exact Or.inl (by rw [h])
    · exact Or.inr ⟨s, hs, by rw [h]; exact ht⟩

/-- C7 at a concrete sequence: a qualifying header, then a qualifying body,
then a header that is too short; the body candidate is the final token. -/
theorem applySightings_last_write_wins_witness :
    (applySightings sampleUnmarshal sampleExtractor
      [Sighting.header (gostr "Bearer " ++ List.replicate 51 65),
       Sighting.body (gostr "body"),
       Sighting.header (gostr "Basic abc")]).authData.JWT = List.replicate 21 120 :=
  ((applySightings_last_write_wins sampleUnmarshal sampleExtractor
      [Sighting.header (gostr "Bearer " ++ List.replicate 51 65),
       Sighting.body (gostr "body"),
       Sighting.header (gostr "Basic abc")]).1
    [Sighting.header (gostr "Bearer " ++ List.replicate 51 65)]
    [Sighting.header (gostr "Basic abc")]
    (Sighting.body (gostr "body")) (List.replicate 21 120) rfl rfl
    (by
      intro s' hs'
      rw [List.mem_singleton] at hs'
      subst hs'
      rfl)).2

/-! ## Selector chains -/

theorem Session.fill_fst_ne_errorf {P : Type} (b : Browser P) (s : Session P) (sel : Selector)
    (text : GoString) (msg : String) (args : List GoString) :
    (s.fill b sel text).1 ≠ some (Error.errorf msg args) := by
  unfold Session.fill
  cases (b.Fill s.page sel text).1 with
  | none => simp
  | some m => simp

theorem fillEmail_loop_first {P : Type} (b : Browser P) (e : Extractor) (s : Session P) :
    ∀ (sels : List Selector) (i : Nat) (sel : Selector), sels[i]? = some sel →
      0 < b.Count s.page sel →
      (∀ (j : Nat) (sel' : Selector), j < i → sels[j]? = some sel' → b.Count s.page sel' ≤ 0) →
      fillEmail.loop b e s sels = s.fill b sel e.username := by
  intro sels
  induction sels with
  | nil => intro i sel h; simp at h
  | cons x xs ih =>
    intro i sel h hpos hbefore
    cases i with
    | zero =>
      simp only [List.getElem?_cons_zero, Option.some.injEq] at h
      subst h
      simp [fillEmail.loop, hpos]
    | succ i =>
      have hx : ¬ b.Count s.page x > 0 := not_lt.mpr (hbefore 0 x (Nat.succ_pos i) (by simp))
      simp only [List.getElem?_cons_succ] at h
      simp only [fillEmail.loop, hx, if_false]
      exact ih i sel h hpos
        (fun j sel' hj hj' => hbefore (j + 1) sel' (Nat.succ_lt_succ hj) (by simpa using hj'))

theorem fillEmail_loop_cases {P : Type} (b : Browser P) (e : Extractor) (s : Session P) :
    ∀ (sels : List Selector),
      ((∀ sel ∈ sels, b.Count s.page sel ≤ 0) ∧
        fillEmail.loop b e s sels = (some (Error.errorf "email input not found" []), s)) ∨
      (∃ sel ∈ sels, 0 < b.Count s.page sel ∧
        fillEmail.loop b e s sels = s.fill b sel e.username) := by
  intro sels
  induction sels with
  | nil => exact Or.inl ⟨by simp, rfl⟩
  | cons x xs ih =>
    by_cases hx : b.Count s.page x > 0
    · exact Or.inr ⟨x, by simp, hx, by simp [fillEmail.loop, hx]⟩
    · rcases ih with ⟨hall, hl⟩ | ⟨sel, hm, hpos, hl⟩
      · refine Or.inl ⟨?_, by simp only [fillEmail.loop, hx, if_false]; exact hl⟩
        intro sel hm
        rcases List.mem_cons.mp hm with h | h
        · subst h; exact not_lt.mp hx
        · exact hall sel h
      · exact Or.inr ⟨sel, List.mem_cons_of_mem x hm, hpos,
          by simp only [fillEmail.loop, hx, if_false]; exact hl⟩

theorem fillPassword_loop_first {P : Type} (b : Browser P) (e : Extractor) (s : Session P) :
    ∀ (sels : List Selector) (i : Nat) (sel : Selector), sels[i]? = some sel →
      0 < b.Count s.page sel →
      (∀ (j : Nat) (sel' : Selector), j < i → sels[j]? = some sel' → b.Count s.page sel' ≤ 0) →
      fillPassword.loop b e s sels = s.fill b sel e.password := by
  intro sels
  induction sels with
  | nil => intro i sel h; simp at h
  | cons x xs ih =>
    intro i sel h hpos hbefore
    cases i with
    | zero =>
      simp only [List.getElem?_cons_zero, Option.some.injEq] at h
      subst h
      simp [fillPassword.loop, hpos]
    | succ i =>
      have hx : ¬ b.Count s.page x > 0 := not_lt.mpr (hbefore 0 x (Nat.succ_pos i) (by simp))
      simp only [List.getElem?_cons_succ] at h
      simp only [fillPassword.loop, hx, if_false]
      exact ih i sel h hpos
        (fun j sel' hj hj' => hbefore (j + 1) sel' (Nat.succ_lt_succ hj) (by simpa using hj'))

theorem fillPassword_loop_cases {P : Type} (b : Browser P) (e : Extractor) (s : Session P) :
    ∀ (sels : List Selector),
      ((∀ sel ∈ sels, b.Count s.page sel ≤ 0) ∧
        fillPassword.loop b e s sels = (some (Error.errorf "password input not found" []), s)) ∨
      (∃ sel ∈ sels, 0 < b.Count s.page sel ∧
        fillPassword.loop b e s sels = s.fill b sel e.password) := by
  intro sels
  induction sels with
  | nil => exact Or.inl ⟨by simp, rfl⟩
  | cons x xs ih =>
    by_cases hx : b.Count s.page x > 0
    · exact Or.inr ⟨x, by simp, hx, by simp [fillPassword.loop, hx]⟩
    · rcases ih with ⟨hall, hl⟩ | ⟨sel, hm, hpos, hl⟩
      · refine Or.inl ⟨?_, by simp only [fillPassword.loop, hx, if_false]; exact hl⟩
        intro sel hm
        rcases List.mem_cons.mp hm with h | h
        · subst h; exact not_lt.mp hx
        · exact hall sel h
      · exact Or.inr ⟨sel, List.mem_cons_of_mem x hm, hpos,
          by simp only [fillPassword.loop, hx, if_false]; exact hl⟩

/-- C10. Selector chain first match: on every page, `fillEmail` fills the
login email into the first selector of `input[type='email']`, `input#email`,
`input#signInName` whose count is positive, and that fill is its only action;
`fillPassword` does the same with the password over `input[type='password']`,
`input#password`; each returns its element-not-found error exactly when no
selector of its chain has a positive count, and then the page and the list of
actions are unchanged. -/
theorem fill_selector_chain_first_match {P : Type} (b : Browser P) (e : Extractor)
    (s : Session P) :
    ((∀ (i : Nat) (sel : Selector), fillEmail.selectors[i]? = some sel →
        0 < b.Count s.page sel →
        (∀ (j : Nat) (sel' : Selector), j < i → fillEmail.selectors[j]? = some sel' →
          b.Count s.page sel' ≤ 0) →
        fillEmail b e s = s.fill b sel e.username ∧
        (fillEmail b e s).2.trace = s.trace ++ [Action.fill sel e.username]) ∧
      ((fillEmail b e s).1 = some (Error.errorf "email input not found" []) ↔
        ∀ sel ∈ fillEmail.selectors, b.Count s.page sel ≤ 0) ∧
      ((∀ sel ∈ fillEmail.selectors, b.Count s.page sel ≤ 0) → (fillEmail b e s).2 = s)) ∧
    ((∀ (i : Nat) (sel : Selector), fillPassword.selectors[i]? = some sel →
        0 < b.Count s.page sel →
        (∀ (j : Nat) (sel' : Selector), j < i → fillPassword.selectors[j]? = some sel' →
          b.Count s.page sel' ≤ 0) →
        fillPassword b e s = s.fill b sel e.password ∧
        (fillPassword b e s).2.trace = s.trace ++ [Action.fill sel e.password]) ∧
      ((fillPassword b e s).1 = some (Error.errorf "password input not found" []) ↔
        ∀ sel ∈ fillPassword.selectors, b.Count s.page sel ≤ 0) ∧
      ((∀ sel ∈ fillPassword.selectors, b.Count s.page sel ≤ 0) → (fillPassword b e s).2 = s)) := by
  refine ⟨⟨?_, ?_, ?_⟩, ⟨?_, ?_, ?_⟩⟩
  · intro i sel hi hpos hbefore
    have h := fillEmail_loop_first b e s fillEmail.selectors i sel hi hpos hbefore
    have h' : fillEmail b e s = s.fill b sel e.username := h
    rw [h']
    exact ⟨rfl, rfl⟩
  · rcases fillEmail_loop_cases b e s fillEmail.selectors with ⟨hall, hl⟩ | ⟨sel, hm, hpos, hl⟩
    · have h' : fillEmail b e s = (some (Error.errorf "email input not found" []), s) := hl
      rw [h']
      exact ⟨fun _ => hall, fun _ => rfl⟩
    · have h' : fillEmail b e s = s.fill b sel e.username := hl
      rw [h']
      constructor
      · intro h
        exact absurd h (Session.fill_fst_ne_errorf b s sel e.username _ _)
      · intro hall
        exact absurd hpos (not_lt.mpr (hall sel hm))
  · intro hall
    rcases fillEmail_loop_cases b e s fillEmail.selectors with ⟨_, hl⟩ | ⟨sel, hm, hpos, _⟩
    · have h' : fillEmail b e s = (some (Error.errorf "email input not found" []), s) := hl
      rw [h']
    · exact absurd hpos (not_lt.mpr (hall sel hm))
  · intro i sel hi hpos hbefore
    have h := fillPassword_loop_first b e s fillPassword.selectors i sel hi hpos hbefore
    have h' : fillPassword b e s = s.fill b sel e.password := h
    rw [h']
    exact ⟨rfl, rfl⟩
  · rcases fillPassword_loop_cases b e s fillPassword.selectors with
      ⟨hall, hl⟩ | ⟨sel, hm, hpos, hl⟩
    · have h' : fillPassword b e s = (some (Error.errorf "password input not found" []), s) := hl
      rw [h']
      exact ⟨fun _ => hall, fun _ => rfl⟩
    · have h' : fillPassword b e s = s.fill b sel e.password := hl
      rw [h']
      constructor
      · intro h
        exact absurd h (Session.fill_fst_ne_errorf b s sel e.password _ _)
      · intro hall
        exact absurd hpos (not_lt.mpr (hall sel hm))
  · intro hall
    rcases fillPassword_loop_cases b e s fillPassword.selectors with ⟨_, hl⟩ | ⟨sel, hm, hpos, _⟩
    · have h' : fillPassword b e s = (some (Error.errorf "password input not found" []), s) := hl
      rw [h']
    · exact absurd hpos (not_lt.mpr (hall sel hm))

/-- C10 on a page where `input[type='email']` is absent and `input#email` is
present, and no password selector is present: the email goes into
`input#email`, and `fillPassword` fails without any action. -/
theorem fill_selector_chain_first_match_witness :
    (fillEmail (scriptedBrowser true) sampleExtractor { page := 0, trace := [] }).2.trace
        = [Action.fill "input#email" sampleExtractor.username] ∧
    (fillPassword (scriptedBrowser true) sampleExtractor { page := 0, trace := [] }).2
        = { page := 0, trace := [] } :=
  ⟨((fill_selector_chain_first_match (scriptedBrowser true) sampleExtractor
        { page := 0, trace := [] }).1.1 1 "input#email" (by decide) (by decide)
        (by
          intro j sel' hj hsel
          match j, hj with
          | 0, _ =>
            have : sel' = "input[type='email']" := by
              simpa [fillEmail.selectors] using hsel.symm
            subst this
            decide)).2,
   (fill_selector_chain_first_match (scriptedBrowser true) sampleExtractor
        { page := 0, trace := [] }).2.2.2
        (by
          intro sel hsel
          simp only [fillPassword.selectors, List.mem_cons, List.mem_singleton,
            List.not_mem_nil, or_false] at hsel
          rcases hsel with h | h
          · subst h; decide
          · subst h; decide)⟩

/-! ## Second factor -/

theorem handle2FA.scan_first {P : Type} (b : Browser P) (p : P) :
    ∀ (sels : List Selector) (i : Nat) (sel : Selector), sels[i]? = some sel →
      0 < b.Count p sel →
      (∀ (j : Nat) (sel' : Selector), j < i → sels[j]? = some sel' → b.Count p sel' ≤ 0) →
      handle2FA.scan b p sels = some sel := by
  intro sels
  induction sels with
  | nil => intro i sel h; simp at h
  | cons x xs ih =>
    intro i sel h hpos hbefore
    cases i with
    | zero =>
      simp only [List.getElem?_cons_zero, Option.some.injEq] at h
      subst h
      simp [handle2FA.scan, hpos]
    | succ i =>
      have hx : ¬ b.Count p x > 0 := not_lt.mpr (hbefore 0 x (Nat.succ_pos i) (by simp))
      simp only [List.getElem?_cons_succ] at h
      simp only [handle2FA.scan, hx, if_false]
      exact ih i sel h hpos
        (fun j sel' hj hj' => hbefore (j + 1) sel' (Nat.succ_lt_succ hj) (by simpa using hj'))

theorem handle2FA.scan_none {P : Type} (b : Browser P) (p : P) :
    ∀ (sels : List Selector), (∀ sel ∈ sels, b.Count p sel ≤ 0) →
      handle2FA.scan b p sels = none := by
  intro sels
  induction sels with
  | nil => intro _; rfl
  | cons x xs ih =>
    intro h
    have hx : ¬ b.Count p x > 0 := not_lt.mpr (h x (List.mem_cons_self x xs))
    simp only [handle2FA.scan, hx, if_false]
    exact ih (fun sel hm => h sel (List.mem_cons_of_mem x hm))

theorem pollPage_succ {P : Type} (b : Browser P) (p : P) (r : Nat) :
    pollPage b (b.Sleep p 500) r = pollPage b p (r + 1) := by
  simp [pollPage, Function.iterate_succ_apply]

theorem handle2FA.poll_found {P : Type} (b : Browser P) (sel : Selector) :
    ∀ (n r : Nat) (s : Session P), r < n →
      handle2FA.scan b (pollPage b s.page r) handle2FA.selectors = some sel →
      (∀ r', r' < r → handle2FA.scan b (pollPage b s.page r') handle2FA.selectors = none) →
      handle2FA.poll b n s =
        (some sel, { page := pollPage b s.page r,
                     trace := s.trace ++ List.replicate r (Action.sleep 500) }) := by
  intro n
  induction n with
  | zero => intro r s h; omega
  | succ n ih =>
    intro r s hr hfound hbefore
    cases r with
    | zero =>
      have h0 : handle2FA.scan b s.page handle2FA.selectors = some sel := hfound
      simp [handle2FA.poll, h0, pollPage]
    | succ r =>
      have h0 : handle2FA.scan b s.page handle2FA.selectors = none :=
        hbefore 0 (Nat.succ_pos r)
      have hstep : handle2FA.poll b (n + 1) s = handle2FA.poll b n (s.sleep b 500) := by
        simp [handle2FA.poll, h0]
      rw [hstep]
      have := ih r (s.sleep b 500) (Nat.lt_of_succ_lt_succ hr)
        (by
          show handle2FA.scan b (pollPage b (b.Sleep s.page 500) r) handle2FA.selectors = some sel
          rw [pollPage_succ]; exact hfound)
        (by
          intro r' hr'
          show handle2FA.scan b (pollPage b (b.Sleep s.page 500) r') handle2FA.selectors = none
          rw [pollPage_succ]; exact hbefore (r' + 1) (Nat.succ_lt_succ hr'))
      rw [this]
      have hp : pollPage b (s.sleep b 500).page r = pollPage b s.page (r + 1) :=
        pollPage_succ b s.page r
      rw [hp]
      simp [Session.sleep, List.replicate_succ]

theorem handle2FA.poll_exhausted {P : Type} (b : Browser P) :
    ∀ (n : Nat) (s : Session P),
      (∀ r, r < n → handle2FA.scan b (pollPage b s.page r) handle2FA.selectors = none) →
      handle2FA.poll b n s =
        (none, { page := pollPage b s.page n,
                 trace := s.trace ++ List.replicate n (Action.sleep 500) }) := by
  intro n
  induction n with
  | zero => intro s _; simp [handle2FA.poll, pollPage]
  | succ n ih =>
    intro s h
    have h0 : handle2FA.scan b s.page handle2FA.selectors = none := h 0 (Nat.succ_pos n)
    have hstep : handle2FA.poll b (n + 1) s = handle2FA.poll b n (s.sleep b 500) := by
      simp [handle2FA.poll, h0]
    rw [hstep]
    have := ih (s.sleep b 500)
      (by
        intro r hr
        show handle2FA.scan b (pollPage b (b.Sleep s.page 500) r) handle2FA.selectors = none
        rw [pollPage_succ]; exact h (r + 1) (Nat.succ_lt_succ hr))
    rw [this]
    have hp : pollPage b (s.sleep b 500).page n = pollPage b s.page (n + 1) :=
      pollPage_succ b s.page n
    rw [hp]
    simp [Session.sleep, List.replicate_succ]

/-- C9, as stated, fails: `input[name='code']` is present in the first round
and the fill fails; `handle2FA` returns the error right after the fill, and no
Enter is pressed on the field. -/
theorem handle2FA_press_counterexample :
    0 < (scriptedBrowser false).Count 1000 "input[name='code']" ∧
    (handle2FA (scriptedBrowser false) sampleExtractor { page := 1000, trace := [] }).1
      = some (Error.wrap "failed to fill 2FA code: %w" [] (Error.lib "element is not editable")) ∧
    (handle2FA (scriptedBrowser false) sampleExtractor { page := 1000, trace := [] }).2.trace
      = [Action.fill "input[name='code']" sampleExtractor.totpToken] ∧
    Action.press "input[name='code']" "Enter" ∉
      (handle2FA (scriptedBrowser false) sampleExtractor { page := 1000, trace := [] }).2.trace := by
  decide

/-- C9, amended. `handle2FA` makes at most 20 polling rounds, 500 ms apart,
over `input#otpCode`, `input[name='code']`, `input#totpCode`. If some selector
has a positive count in some round, it stops at the earliest such round and
fills the first such selector in chain order with the caller-supplied TOTP
code; when the fill succeeds it waits 500 ms, presses Enter on that same field
and returns success whether or not the press failed; when the fill fails it
returns that error and presses nothing. If no selector has a positive count in
any of the 20 rounds it returns an error, having only slept. -/
theorem handle2FA_bounded_polling {P : Type} (b : Browser P) (e : Extractor) (s : Session P) :
    (∀ (r i : Nat) (sel : Selector), r < 20 → handle2FA.selectors[i]? = some sel →
        0 < b.Count (pollPage b s.page r) sel →
        (∀ (r' : Nat) (sel' : Selector), r' < r → sel' ∈ handle2FA.selectors →
          b.Count (pollPage b s.page r') sel' ≤ 0) →
        (∀ (j : Nat) (sel' : Selector), j < i → handle2FA.selectors[j]? = some sel' →
          b.Count (pollPage b s.page r) sel' ≤ 0) →
        ((b.Fill (pollPage b s.page r) sel e.totpToken).1 = none →
          (handle2FA b e s).1 = none ∧
          (handle2FA b e s).2.trace =
            s.trace ++ List.replicate r (Action.sleep 500) ++
              [Action.fill sel e.totpToken, Action.sleep 500, Action.press sel "Enter"]) ∧
        (∀ (msg : String), (b.Fill (pollPage b s.page r) sel e.totpToken).1 = some msg →
          (handle2FA b e s).1 =
            some (Error.wrap "failed to fill 2FA code: %w" [] (Error.lib msg)) ∧
          (handle2FA b e s).2.trace =
            s.trace ++ List.replicate r (Action.sleep 500) ++ [Action.fill sel e.totpToken])) ∧
    ((∀ (r : Nat) (sel : Selector), r < 20 → sel ∈ handle2FA.selectors →
        b.Count (pollPage b s.page r) sel ≤ 0) →
      (handle2FA b e s).1 =
        some (Error.errorf "2FA input field not found after waiting 10 seconds" []) ∧
      (handle2FA b e s).2.trace = s.trace ++ List.replicate 20 (Action.sleep 500)) := by
  constructor
  · intro r i sel hr hi hpos hearlier hbefore
    have hpoll := handle2FA.poll_found b sel 20 r s hr
      (handle2FA.scan_first b _ handle2FA.selectors i sel hi hpos hbefore)
      (fun r' hr' => handle2FA.scan_none b _ handle2FA.selectors
        (fun sel' hm => hearlier r' sel' hr' hm))
    constructor
    · intro hfill
      simp [handle2FA, hpoll, Session.fill, Session.sleep, Session.press, hfill]
    · intro msg hfill
      simp [handle2FA, hpoll, Session.fill, hfill]
  · intro hnone
    have hpoll := handle2FA.poll_exhausted b 20 s
      (fun r hr => handle2FA.scan_none b _ handle2FA.selectors
        (fun sel hm => hnone r sel hr hm))
    simp [handle2FA, hpoll]

/-- C9 amended, on a page where `input[name='code']` appears after one second:
two rounds fail, the third finds it, the fill succeeds, Enter is pressed and
its failure does not matter. -/
theorem handle2FA_bounded_polling_witness :
    (handle2FA (scriptedBrowser true) sampleExtractor { page := 0, trace := [] }).1 = none ∧
    (handle2FA (scriptedBrowser true) sampleExtractor { page := 0, trace := [] }).2.trace =
      [] ++ List.replicate 2 (Action.sleep 500) ++
        [Action.fill "input[name='code']" sampleExtractor.totpToken, Action.sleep 500,
         Action.press "input[name='code']" "Enter"] :=
  ((handle2FA_bounded_polling (scriptedBrowser true) sampleExtractor
      { page := 0, trace := [] }).1 2 1 "input[name='code']" (by decide) (by decide) (by decide)
      (by
        intro r' sel' hr' hm
        simp only [handle2FA.selectors, List.mem_cons, List.mem_singleton,
          List.not_mem_nil, or_false] at hm
        match r', hr' with
        | 0, _ => rcases hm with h | h | h <;> (subst h; decide)
        | 1, _ => rcases hm with h | h | h <;> (subst h; decide))
      (by
        intro j sel' hj hsel
        match j, hj with
        | 0, _ =>
          have : sel' = "input#otpCode" := by
            simpa [handle2FA.selectors] using hsel.symm
          subst this
          decide)).1 (by decide)

/-! ## One credential -/

theorem World.during_zero (w : World) (c : AtermesCredentials) (baseURL : GoString) :
    w.emit (Effect.invoke c baseURL) = w.during c baseURL 0 := by
  simp [World.emit, World.during, sessionSteps]

theorem World.during_one (w : World) (c : AtermesCredentials) (baseURL : GoString) :
    (w.during c baseURL 0).emit Effect.playwrightRun = w.during c baseURL 1 := by
  simp [World.emit, World.during, sessionSteps]

theorem World.during_two (w : World) (c : AtermesCredentials) (baseURL : GoString) :
    (w.during c baseURL 1).emit Effect.chromiumLaunch = w.during c baseURL 2 := by
  simp [World.emit, World.during, sessionSteps]

theorem World.during_three (w : World) (c : AtermesCredentials) (baseURL : GoString) :
    (w.during c baseURL 2).emit Effect.newContext = w.during c baseURL 3 := by
  simp [World.emit, World.during, sessionSteps]

theorem World.during_four (w : World) (c : AtermesCredentials) (baseURL : GoString) :
    (w.during c baseURL 3).emit Effect.newPage = w.during c baseURL 4 := by
  simp [World.emit, World.during, sessionSteps]

theorem extractOneCredential_eq_of_session (x : Externals) (w : World) (c : AtermesCredentials)
    (baseURL : GoString)
    (hRun : x.Run (w.during c baseURL 0) = none)
    (hLaunch : x.Launch (w.during c baseURL 1) = none)
    (hContext : x.NewContext (w.during c baseURL 2) = none)
    (hPage : x.NewPage (w.during c baseURL 3) = none) :
    extractOneCredential x w c baseURL =
      ((extractOneCredential.withPage x (w.during c baseURL 4) c baseURL).1,
       (((extractOneCredential.withPage x (w.during c baseURL 4) c baseURL).2.emit
          Effect.contextClose).emit Effect.browserClose).emit Effect.playwrightStop) := by
  unfold extractOneCredential
  rw [World.during_zero, hRun]
  simp only [World.during_one]
  unfold extractOneCredential.withPlaywright
  rw [hLaunch]
  simp only [World.during_two]
  unfold extractOneCredential.withBrowser
  rw [hContext]
  simp only [World.during_three, hPage, World.during_four]

theorem updateCredentialsJWT_trace (x : Externals) (w : World) (id jwt : GoString) :
    (updateCredentialsJWT x w id jwt).2.trace = w.trace ++ [Effect.updates id jwt] := by
  unfold updateCredentialsJWT
  cases x.Updates w id jwt <;> rfl

theorem extractOneCredential.withPage_trace (x : Externals) (w : World) (c : AtermesCredentials)
    (baseURL totpCode : GoString)
    (hTotp : x.GenerateCode w c.TwoFactorKey = Except.ok totpCode) :
    ((x.Extract w (NewExtractor baseURL c.Email c.Password c.TwoFactorKey totpCode)).1 = none ∧
      (x.Extract w (NewExtractor baseURL c.Email c.Password c.TwoFactorKey totpCode)).2.authData.JWT
        ≠ [] →
      (extractOneCredential.withPage x w c baseURL).2.trace =
        w.trace ++ [Effect.updates c.ID.String
          (x.Extract w (NewExtractor baseURL c.Email c.Password c.TwoFactorKey
            totpCode)).2.authData.JWT]) ∧
    (¬ ((x.Extract w (NewExtractor baseURL c.Email c.Password c.TwoFactorKey totpCode)).1 = none ∧
      (x.Extract w (NewExtractor baseURL c.Email c.Password c.TwoFactorKey totpCode)).2.authData.JWT
        ≠ []) →
      (extractOneCredential.withPage x w c baseURL).2 = w ∧
      (extractOneCredential.withPage x w c baseURL).1 ≠ none) := by
  unfold extractOneCredential.withPage
  rw [hTotp]
  simp only
  rcases hex : x.Extract w (NewExtractor baseURL c.Email c.Password c.TwoFactorKey totpCode) with
    ⟨err, ex⟩
  cases err with
  | some err => simp
  | none =>
    by_cases hj : ex.authData.JWT = []
    · simp [GetAuthData, hj]
    · have htr := updateCredentialsJWT_trace x w c.ID.String ex.authData.JWT
      rcases hu : updateCredentialsJWT x w c.ID.String ex.authData.JWT with ⟨uerr, w1⟩
      rw [hu] at htr
      cases uerr with
      | some uerr => simp [GetAuthData, hj, hu]; exact htr
      | none => simp [GetAuthData, hj, hu]; exact htr

theorem updateRequests_append (t u : List Effect) :
    updateRequests (t ++ u) = updateRequests t ++ updateRequests u := by
  simp [updateRequests, List.filterMap_append]

/-- C5. In `extractOneCredential`, once the browser session is allocated and
the TOTP code generated, the store update is requested if and only if
`Extract` returned no error and the captured token is non-empty; it is then
requested exactly once, with the id of the credential being processed and
exactly the captured token. When `Extract` fails or the token is empty, no
update is requested, the credentials table is unchanged and the call returns
an error. -/
theorem extractOneCredential_update_iff (x : Externals) (w : World) (c : AtermesCredentials)
    (baseURL totpCode : GoString)
    (hRun : x.Run (w.during c baseURL 0) = none)
    (hLaunch : x.Launch (w.during c baseURL 1) = none)
    (hContext : x.NewContext (w.during c baseURL 2) = none)
    (hPage : x.NewPage (w.during c baseURL 3) = none)
    (hTotp : x.GenerateCode (w.during c baseURL 4) c.TwoFactorKey = Except.ok totpCode) :
    ((x.Extract (w.during c baseURL 4)
          (NewExtractor baseURL c.Email c.Password c.TwoFactorKey totpCode)).1 = none ∧
      (x.Extract (w.during c baseURL 4)
          (NewExtractor baseURL c.Email c.Password c.TwoFactorKey totpCode)).2.authData.JWT ≠ [] →
      updateRequests ((extractOneCredential x w c baseURL).2.trace.drop w.trace.length) =
        [(c.ID.String,
          (x.Extract (w.during c baseURL 4)
            (NewExtractor baseURL c.Email c.Password c.TwoFactorKey totpCode)).2.authData.JWT)]) ∧
    (¬ ((x.Extract (w.during c baseURL 4)
          (NewExtractor baseURL c.Email c.Password c.TwoFactorKey totpCode)).1 = none ∧
      (x.Extract (w.during c baseURL 4)
          (NewExtractor baseURL c.Email c.Password c.TwoFactorKey totpCode)).2.authData.JWT ≠ []) →
      updateRequests ((extractOneCredential x w c baseURL).2.trace.drop w.trace.length) = [] ∧
      (extractOneCredential x w c baseURL).2.credentials = w.credentials ∧
      (extractOneCredential x w c baseURL).1 ≠ none) := by
  rw [extractOneCredential_eq_of_session x w c baseURL hRun hLaunch hContext hPage]
  have hp := extractOneCredential.withPage_trace x (w.during c baseURL 4) c baseURL totpCode hTotp
  constructor
  · intro h
    have h1 := hp.1 h
    simp only [World.emit, h1]
    simp [World.during, sessionSteps, updateRequests]
  · intro h
    have h1 := hp.2 h
    simp only [World.emit, h1.1]
    refine ⟨?_, rfl, h1.2⟩
    simp [World.during, sessionSteps, updateRequests]

/-! ## Go maps -/

theorem GoMap.get_eq_none_iff {K V : Type} [DecidableEq K] (m : GoMap K V) (k : K) :
    m.get k = none ↔ k ∉ m.map Prod.fst := by
  induction m with
  | nil => simp [GoMap.get]
  | cons kv rest ih =>
    obtain ⟨k1, v1⟩ := kv
    by_cases h : k1 = k
    · simp [GoMap.get, h]
    · simp only [GoMap.get, h, if_false, List.map_cons, List.mem_cons, not_or]
      rw [ih]
      exact ⟨fun hr => ⟨fun hk => h hk.symm, hr⟩, fun hr => hr.2⟩

theorem GoMap.set_of_get_none {K V : Type} [DecidableEq K] (m : GoMap K V) (k : K) (v : V)
    (h : m.get k = none) : m.set k v = m ++ [(k, v)] := by
  induction m with
  | nil => rfl
  | cons kv rest ih =>
    obtain ⟨k1, v1⟩ := kv
    by_cases hk : k1 = k
    · simp [GoMap.get, hk] at h
    · simp only [GoMap.get, hk, if_false] at h
      simp [GoMap.set, hk, ih h]

theorem GoMap.get_set_self {K V : Type} [DecidableEq K] (m : GoMap K V) (k : K) (v : V) :
    (m.set k v).get k = some v := by
  induction m with
  | nil => simp [GoMap.set, GoMap.get]
  | cons kv rest ih =>
    obtain ⟨k1, v1⟩ := kv
    by_cases hk : k1 = k
    · simp [GoMap.set, GoMap.get, hk]
    · simp [GoMap.set, GoMap.get, hk, ih]

theorem GoMap.get_set_ne {K V : Type} [DecidableEq K] (m : GoMap K V) (k k' : K) (v : V)
    (h : k ≠ k') : (m.set k v).get k' = m.get k' := by
  induction m with
  | nil => simp [GoMap.set, GoMap.get, h]
  | cons kv rest ih =>
    obtain ⟨k1, v1⟩ := kv
    by_cases hk : k1 = k
    · subst hk
      simp [GoMap.set, GoMap.get, h]
    · by_cases hk' : k1 = k'
      · subst hk'
        simp [GoMap.set, GoMap.get, hk]
      · simp [GoMap.set, GoMap.get, hk, hk', ih]

/-! ## First bindings -/

theorem firstBinding_eq_none_iff (envs : List AtermesEnvironment) (id : GoString) :
    firstBinding envs id = none ↔ id ∉ credentialIDs envs := by
  simp only [firstBinding, credentialIDs, List.find?_eq_none, List.mem_map, not_exists, not_and,
    decide_eq_true_eq]

theorem firstBinding_some (envs : List AtermesEnvironment) (id : GoString)
    (b : AtermesEnvironment) (h : firstBinding envs id = some b) :
    b ∈ envs ∧ b.Credentials.ID.String = id := by
  refine ⟨List.mem_of_find?_eq_some h, ?_⟩
  have := List.find?_some h
  simpa using this

theorem firstBinding_concat (done : List AtermesEnvironment) (env : AtermesEnvironment)
    (id : GoString) :
    firstBinding (done ++ [env]) id =
      match firstBinding done id with
      | some b => some b
      | none => if env.Credentials.ID.String = id then some env else none := by
  unfold firstBinding
  rw [List.find?_append]
  cases List.find? (fun env => decide (env.Credentials.ID.String = id)) done with
  | some b => rfl
  | none =>
    by_cases h : env.Credentials.ID.String = id
    · simp [List.find?_cons, h]
    · simp [List.find?_cons, h]

theorem credentialIDs_concat (done : List AtermesEnvironment) (env : AtermesEnvironment) :
    credentialIDs (done ++ [env]) = credentialIDs done ++ [env.Credentials.ID.String] := by
  simp [credentialIDs]

/-! ## The grouping loop -/

theorem GroupInv.nil (sem : LoopVar) : GroupInv sem [] ([], []) := by
  refine ⟨List.nodup_nil, ?_, ?_, ?_⟩
  · intro id; simp [credentialIDs]
  · intro id ptr h; simp at h
  · intro id; rfl

theorem GroupInv.skip (sem : LoopVar) (done : List AtermesEnvironment)
    (env : AtermesEnvironment) (maps : GoMap GoString Nat × GoMap GoString GoString)
    (h : GroupInv sem done maps) (ptr : Nat)
    (hget : maps.1.get env.Credentials.ID.String = some ptr) :
    GroupInv sem (done ++ [env]) maps := by
  obtain ⟨hnd, hkeys, hptr, hten⟩ := h
  have hin : env.Credentials.ID.String ∈ credentialIDs done := by
    rw [← hkeys]
    by_contra hc
    rw [← GoMap.get_eq_none_iff, hget] at hc
    cases hc
  obtain ⟨b0, hb0⟩ : ∃ b, firstBinding done env.Credentials.ID.String = some b := by
    cases hf : firstBinding done env.Credentials.ID.String with
    | some b => exact ⟨b, rfl⟩
    | none => exact absurd hin ((firstBinding_eq_none_iff _ _).1 hf)
  refine ⟨hnd, ?_, ?_, ?_⟩
  · intro id
    rw [hkeys, credentialIDs_concat, List.mem_append, List.mem_singleton]
    constructor
    · exact Or.inl
    · rintro (h | h)
      · exact h
      · rw [h]; exact hin
  · intro id p hmem hsem
    have hid : id ∈ credentialIDs done :=
      (hkeys id).1 (List.mem_map.2 ⟨(id, p), hmem, rfl⟩)
    have hp := hptr id p hmem hsem
    cases hf : firstBinding done id with
    | none => exact absurd hid ((firstBinding_eq_none_iff _ _).1 hf)
    | some b =>
      rw [hf] at hp
      have hlt : p < done.length := (List.getElem?_eq_some.1 hp).1
      rw [List.getElem?_append_left hlt, hp, firstBinding_concat, hf]
  · intro id
    rw [hten, firstBinding_concat]
    cases hf : firstBinding done id with
    | some b => rfl
    | none =>
      have hne : ¬ env.Credentials.ID.String = id := by
        intro heq
        rw [heq] at hb0
        rw [hb0] at hf
        cases hf
      simp [hne]

theorem GroupInv.insert (sem : LoopVar) (done : List AtermesEnvironment)
    (env : AtermesEnvironment) (maps : GoMap GoString Nat × GoMap GoString GoString)
    (h : GroupInv sem done maps)
    (hget : maps.1.get env.Credentials.ID.String = none) :
    GroupInv sem (done ++ [env])
      (maps.1.set env.Credentials.ID.String (sem.cell done.length),
       maps.2.set env.Credentials.ID.String env.Tenant) := by
  obtain ⟨hnd, hkeys, hptr, hten⟩ := h
  have hnotkey : env.Credentials.ID.String ∉ maps.1.map Prod.fst :=
    (GoMap.get_eq_none_iff _ _).1 hget
  have hnotin : env.Credentials.ID.String ∉ credentialIDs done := fun hc =>
    hnotkey ((hkeys _).2 hc)
  have hfnone : firstBinding done env.Credentials.ID.String = none :=
    (firstBinding_eq_none_iff _ _).2 hnotin
  rw [GoMap.set_of_get_none _ _ _ hget]
  refine ⟨?_, ?_, ?_, ?_⟩
  · simp only [List.map_append, List.map_cons, List.map_nil]
    rw [List.nodup_append]
    refine ⟨hnd, List.nodup_singleton _, ?_⟩
    intro a ha hb
    rw [List.mem_singleton] at hb
    rw [hb] at ha
    exact hnotkey ha
  · intro id
    simp only [List.map_append, List.map_cons, List.map_nil, List.mem_append,
      List.mem_singleton]
    rw [hkeys, credentialIDs_concat, List.mem_append, List.mem_singleton]
  · intro id p hmem hsem
    rw [List.mem_append, List.mem_singleton] at hmem
    rcases hmem with hmem | hmem
    · have hid : id ∈ credentialIDs done :=
        (hkeys id).1 (List.mem_map.2 ⟨(id, p), hmem, rfl⟩)
      have hp := hptr id p hmem hsem
      cases hf : firstBinding done id with
      | none => exact absurd hid ((firstBinding_eq_none_iff _ _).1 hf)
      | some b =>
        rw [hf] at hp
        have hlt : p < done.length := (List.getElem?_eq_some.1 hp).1
        rw [List.getElem?_append_left hlt, hp, firstBinding_concat, hf]
    · injection hmem with h1 h2
      subst h1
      subst hsem
      rw [h2, firstBinding_concat, hfnone]
      simp [LoopVar.cell]
  · intro id
    rw [firstBinding_concat]
    by_cases hid : env.Credentials.ID.String = id
    · subst hid
      rw [GoMap.get_set_self, hfnone]
      simp
    · rw [GoMap.get_set_ne _ _ _ _ hid, hten]
      cases hf : firstBinding done id with
      | some b => rfl
      | none => simp [hid]

theorem GroupInv.group (sem : LoopVar) :
    ∀ (rest done : List AtermesEnvironment)
      (maps : GoMap GoString Nat × GoMap GoString GoString),
      GroupInv sem done maps →
      GroupInv sem (done ++ rest)
        (ExtractJWTForAllCredentials.group sem done.length rest maps) := by
  intro rest
  induction rest with
  | nil => intro done maps h; simpa [ExtractJWTForAllCredentials.group] using h
  | cons env rest ih =>
    intro done maps h
    obtain ⟨m1, m2⟩ := maps
    have hassoc : done ++ env :: rest = (done ++ [env]) ++ rest := by simp
    have hlen : done.length + 1 = (done ++ [env]).length := by simp
    rw [hassoc]
    unfold ExtractJWTForAllCredentials.group
    cases hget : m1.get env.Credentials.ID.String with
    | some ptr =>
      simp only
      rw [hlen]
      exact ih (done ++ [env]) (m1, m2) (GroupInv.skip sem done env (m1, m2) h ptr hget)
    | none =>
      simp only
      rw [hlen]
      exact ih (done ++ [env]) _ (GroupInv.insert sem done env (m1, m2) h hget)

theorem GroupInv.final (sem : LoopVar) (envs : List AtermesEnvironment) :
    GroupInv sem envs (ExtractJWTForAllCredentials.group sem 0 envs ([], [])) := by
  have := GroupInv.group sem envs [] ([], []) (GroupInv.nil sem)
  simpa using this

/-! ## Traces of the service -/

theorem invocations_append (t u : List Effect) :
    invocations (t ++ u) = invocations t ++ invocations u := by
  simp [invocations, List.filterMap_append]

theorem Quiet.refl (w : World) : Quiet w w :=
  ⟨[], by simp, rfl⟩

theorem Quiet.emit {w w1 : World} (h : Quiet w w1) (eff : Effect)
    (heff : invocations [eff] = []) : Quiet w (w1.emit eff) := by
  obtain ⟨t, ht, hq⟩ := h
  refine ⟨t ++ [eff], ?_, ?_⟩
  · simp [World.emit, ht]
  · rw [invocations_append, hq, heff]; rfl

theorem Quiet.trans {w w1 w2 : World} (h1 : Quiet w w1) (h2 : Quiet w1 w2) : Quiet w w2 := by
  obtain ⟨t1, ht1, hq1⟩ := h1
  obtain ⟨t2, ht2, hq2⟩ := h2
  refine ⟨t1 ++ t2, ?_, ?_⟩
  · rw [ht2, ht1, List.append_assoc]
  · rw [invocations_append, hq1, hq2]; rfl

theorem updateCredentialsJWT_quiet (x : Externals) (w : World) (id jwt : GoString) :
    Quiet w (updateCredentialsJWT x w id jwt).2 :=
  ⟨[Effect.updates id jwt], updateCredentialsJWT_trace x w id jwt, rfl⟩

theorem extractOneCredential.withPage_quiet (x : Externals) (w : World)
    (c : AtermesCredentials) (baseURL : GoString) :
    Quiet w (extractOneCredential.withPage x w c baseURL).2 := by
  unfold extractOneCredential.withPage
  cases x.GenerateCode w c.TwoFactorKey with
  | error msg => exact Quiet.refl w
  | ok totpCode =>
    simp only
    rcases x.Extract w (NewExtractor baseURL c.Email c.Password c.TwoFactorKey totpCode) with
      ⟨err, ex⟩
    cases err with
    | some err => exact Quiet.refl w
    | none =>
      simp only
      by_cases hj : (GetAuthData ex (x.Now w)).JWT = []
      · simp only [hj, if_true]; exact Quiet.refl w
      · simp only [hj, if_false]
        have hq := updateCredentialsJWT_quiet x w c.ID.String (GetAuthData ex (x.Now w)).JWT
        rcases hu : updateCredentialsJWT x w c.ID.String (GetAuthData ex (x.Now w)).JWT with
          ⟨uerr, w1⟩
        rw [hu] at hq
        cases uerr with
        | some uerr => exact hq
        | none => exact hq

theorem extractOneCredential.withBrowser_quiet (x : Externals) (w : World)
    (c : AtermesCredentials) (baseURL : GoString) :
    Quiet w (extractOneCredential.withBrowser x w c baseURL).2 := by
  unfold extractOneCredential.withBrowser
  cases x.NewContext w with
  | some msg => exact Quiet.refl w
  | none =>
    simp only
    cases x.NewPage (w.emit Effect.newContext) with
    | some msg =>
      exact ((Quiet.refl w).emit Effect.newContext rfl).emit Effect.contextClose rfl
    | none =>
      exact ((((Quiet.refl w).emit Effect.newContext rfl).emit Effect.newPage rfl).trans
        (extractOneCredential.withPage_quiet x _ c baseURL)).emit Effect.contextClose rfl

theorem extractOneCredential.withPlaywright_quiet (x : Externals) (w : World)
    (c : AtermesCredentials) (baseURL : GoString) :
    Quiet w (extractOneCredential.withPlaywright x w c baseURL).2 := by
  unfold extractOneCredential.withPlaywright
  cases x.Launch w with
  | some msg => exact Quiet.refl w
  | none =>
    exact (((Quiet.refl w).emit Effect.chromiumLaunch rfl).trans
      (extractOneCredential.withBrowser_quiet x _ c baseURL)).emit Effect.browserClose rfl

theorem extractOneCredential_quiet (x : Externals) (w : World)
    (c : AtermesCredentials) (baseURL : GoString) :
    Quiet (w.emit (Effect.invoke c baseURL)) (extractOneCredential x w c baseURL).2 := by
  unfold extractOneCredential
  cases x.Run (w.emit (Effect.invoke c baseURL)) with
  | some msg => exact Quiet.refl _
  | none =>
    exact (((Quiet.refl _).emit Effect.playwrightRun rfl).trans
      (extractOneCredential.withPlaywright_quiet x _ c baseURL)).emit Effect.playwrightStop rfl

theorem extractOneCredential_invocations (x : Externals) (w : World)
    (c : AtermesCredentials) (baseURL : GoString) :
    ∃ t, (extractOneCredential x w c baseURL).2.trace = w.trace ++ t ∧
      invocations t = [(c, baseURL)] := by
  obtain ⟨t, ht, hq⟩ := extractOneCredential_quiet x w c baseURL
  refine ⟨Effect.invoke c baseURL :: t, ?_, ?_⟩
  · rw [ht]; simp [World.emit]
  · have : Effect.invoke c baseURL :: t = [Effect.invoke c baseURL] ++ t := rfl
    rw [this, invocations_append, hq]; rfl

theorem ExtractJWTForAllCredentials.process_invocations (x : Externals)
    (cells : List AtermesEnvironment) (credentialToTenant : GoMap GoString GoString) :
    ∀ (entries : List (GoString × Nat)) (w : World),
      ∃ t, (ExtractJWTForAllCredentials.process x cells credentialToTenant entries w).trace
            = w.trace ++ t ∧
        invocations t = entries.map (fun p =>
          (deref cells p.2, tenantBaseURL ((credentialToTenant.get p.1).getD []))) := by
  intro entries
  induction entries with
  | nil => intro w; exact ⟨[], by simp [ExtractJWTForAllCredentials.process], rfl⟩
  | cons p rest ih =>
    intro w
    obtain ⟨credID, ptr⟩ := p
    obtain ⟨t1, ht1, hq1⟩ := extractOneCredential_invocations x w (deref cells ptr)
      (tenantBaseURL ((credentialToTenant.get credID).getD []))
    unfold ExtractJWTForAllCredentials.process
    rcases hr : extractOneCredential x w (deref cells ptr)
      (tenantBaseURL ((credentialToTenant.get credID).getD [])) with ⟨err, w1⟩
    rw [hr] at ht1
    cases err with
    | some err =>
      obtain ⟨t2, ht2, hq2⟩ := ih w1
      refine ⟨t1 ++ t2, ?_, ?_⟩
      · simp only
        rw [ht2, ht1, List.append_assoc]
      · rw [invocations_append, hq1, hq2]; rfl
    | none =>
      obtain ⟨t2, ht2, hq2⟩ := ih (w1.emit (Effect.sleep 1000))
      refine ⟨t1 ++ Effect.sleep 1000 :: t2, ?_, ?_⟩
      · simp only
        have ht1' : w1.trace = w.trace ++ t1 := ht1
        rw [ht2]
        simp [World.emit, ht1']
      · have : t1 ++ Effect.sleep 1000 :: t2 = t1 ++ ([Effect.sleep 1000] ++ t2) := rfl
        rw [this, invocations_append, invocations_append, hq1, hq2]; rfl

theorem ExtractJWTForAllCredentials_invocations (sem : LoopVar) (x : Externals) (w : World)
    (envs : List AtermesEnvironment) (hFind : x.Find w = Except.ok envs) (hne : envs ≠ []) :
    (ExtractJWTForAllCredentials sem x w).1 = none ∧
    invocations ((ExtractJWTForAllCredentials sem x w).2.trace.drop w.trace.length) =
      (x.mapRange (ExtractJWTForAllCredentials.group sem 0 envs ([], [])).1).map (fun p =>
        (deref (sem.cells envs) p.2,
         tenantBaseURL
           (((ExtractJWTForAllCredentials.group sem 0 envs ([], [])).2.get p.1).getD []))) := by
  have hlen : ¬ envs.length = 0 := fun h => hne (List.length_eq_zero.1 h)
  obtain ⟨t, ht, hq⟩ := ExtractJWTForAllCredentials.process_invocations x (sem.cells envs)
    (ExtractJWTForAllCredentials.group sem 0 envs ([], [])).2
    (x.mapRange (ExtractJWTForAllCredentials.group sem 0 envs ([], [])).1) w
  unfold ExtractJWTForAllCredentials getAllEnabledEnvironments
  rw [hFind]
  simp only [hlen, if_false, true_and]
  rw [ht, List.drop_left, hq]

/-- C5 at a concrete run: the session is allocated, the code generated,
`Extract` captures a token of 60 bytes for credential 1; exactly one update is
requested, for the id of credential 1 with that token. -/
theorem extractOneCredential_update_iff_witness :
    updateRequests
      ((extractOneCredential (sampleExternals sampleEnvs) sampleWorld (sampleCredentials 1)
        (tenantBaseURL (gostr "alpha"))).2.trace.drop sampleWorld.trace.length)
      = [((sampleCredentials 1).ID.String, List.replicate 60 65)] :=
  (extractOneCredential_update_iff (sampleExternals sampleEnvs) sampleWorld (sampleCredentials 1)
    (tenantBaseURL (gostr "alpha")) (gostr "123456") rfl rfl rfl rfl rfl).1
    ⟨rfl, by decide⟩

/-! ## All credentials -/

/-- C4. When the store returns the list `envs` of enabled bindings,
`ExtractJWTForAllCredentials` returns an error if and only if `envs` is empty;
with an empty list the world is untouched (`extractOneCredential` is never
entered, no browser session is allocated); with a non-empty list the result is
success whatever the outcomes of the individual credentials. -/
theorem ExtractJWTForAllCredentials_error_iff_empty (sem : LoopVar) (x : Externals) (w : World)
    (envs : List AtermesEnvironment) (hFind : x.Find w = Except.ok envs) :
    ((ExtractJWTForAllCredentials sem x w).1 ≠ none ↔ envs = []) ∧
    (envs = [] →
      (ExtractJWTForAllCredentials sem x w).1 =
        some (Error.errorf "no enabled environments found" []) ∧
      (ExtractJWTForAllCredentials sem x w).2 = w ∧
      invocations ((ExtractJWTForAllCredentials sem x w).2.trace.drop w.trace.length) = []) ∧
    (envs ≠ [] → (ExtractJWTForAllCredentials sem x w).1 = none) := by
  have hempty : envs = [] →
      (ExtractJWTForAllCredentials sem x w).1 =
        some (Error.errorf "no enabled environments found" []) ∧
      (ExtractJWTForAllCredentials sem x w).2 = w ∧
      invocations ((ExtractJWTForAllCredentials sem x w).2.trace.drop w.trace.length) = [] := by
    intro h
    subst h
    unfold ExtractJWTForAllCredentials getAllEnabledEnvironments
    rw [hFind]
    simp [invocations]
  have hnonempty : envs ≠ [] → (ExtractJWTForAllCredentials sem x w).1 = none := fun h =>
    (ExtractJWTForAllCredentials_invocations sem x w envs hFind h).1
  refine ⟨⟨?_, ?_⟩, hempty, hnonempty⟩
  · intro herr
    by_contra hne
    exact herr (hnonempty hne)
  · intro h
    rw [(hempty h).1]
    simp

/-- C4 at concrete stores: no binding gives an error, three bindings give
success although credential 2 fails. -/
theorem ExtractJWTForAllCredentials_error_iff_empty_witness :
    (ExtractJWTForAllCredentials LoopVar.perIteration (sampleExternals []) sampleWorld).1 ≠ none ∧
    (ExtractJWTForAllCredentials LoopVar.perIteration (sampleExternals sampleEnvs)
      sampleWorld).1 = none :=
  ⟨(ExtractJWTForAllCredentials_error_iff_empty LoopVar.perIteration (sampleExternals [])
      sampleWorld [] rfl).1.2 rfl,
   (ExtractJWTForAllCredentials_error_iff_empty LoopVar.perIteration (sampleExternals sampleEnvs)
      sampleWorld sampleEnvs rfl).2.2 (by decide)⟩

theorem ExtractJWTForAllCredentials.group_entry (envs : List AtermesEnvironment)
    (id : GoString) (ptr : Nat)
    (hmem : (id, ptr) ∈ (ExtractJWTForAllCredentials.group LoopVar.perIteration 0 envs ([], [])).1) :
    ∃ b, firstBinding envs id = some b ∧
      deref (LoopVar.perIteration.cells envs) ptr = b.Credentials ∧
      tenantBaseURL
        (((ExtractJWTForAllCredentials.group LoopVar.perIteration 0 envs ([], [])).2.get id).getD
          []) = tenantBaseURL b.Tenant := by
  obtain ⟨_, hkeys, hptr, hten⟩ := GroupInv.final LoopVar.perIteration envs
  have hid : id ∈ credentialIDs envs := (hkeys id).1 (List.mem_map.2 ⟨(id, ptr), hmem, rfl⟩)
  cases hf : firstBinding envs id with
  | none => exact absurd hid ((firstBinding_eq_none_iff _ _).1 hf)
  | some b =>
    refine ⟨b, rfl, ?_, ?_⟩
    · have hp := hptr id ptr hmem rfl
      rw [hf] at hp
      simp [deref, LoopVar.cells, hp]
    · rw [hten id, hf]
      rfl

theorem length_filter_eq_of_nodup {α : Type} [DecidableEq α] (a : α) :
    ∀ (l : List α), l.Nodup →
      (l.filter (fun i => decide (i = a))).length = if a ∈ l then 1 else 0 := by
  intro l
  induction l with
  | nil => intro _; rfl
  | cons x xs ih =>
    intro hnd
    rw [List.nodup_cons] at hnd
    by_cases hx : x = a
    · subst hx
      have hnot : ¬ x ∈ xs := hnd.1
      have := ih hnd.2
      simp only [hnot, if_false] at this
      simp [List.filter_cons, this]
    · have hne : ¬ a = x := fun h => hx h.symm
      simp [List.filter_cons, hx, hne, ih hnd.2]

theorem length_filter_map {α β : Type} (f : α → β) (p : β → Bool) (l : List α) :
    (l.filter (fun a => p (f a))).length = ((l.map f).filter p).length := by
  induction l with
  | nil => rfl
  | cons x xs ih =>
    cases hp : p (f x) with
    | true => simp [List.filter_cons, hp, ih]
    | false => simp [List.filter_cons, hp, ih]

/-- C3. For every non-empty list of enabled bindings and whatever the
individual credentials do, the number of invocations of `extractOneCredential`
equals the number of distinct credential ids in the list; with one loop
variable per iteration, the number of invocations whose record carries a
given id is one for each id occurring in the list and zero for every other
id. -/
theorem ExtractJWTForAllCredentials_once_per_id (sem : LoopVar) (x : Externals) (w : World)
    (envs : List AtermesEnvironment) (hFind : x.Find w = Except.ok envs) (hne : envs ≠ [])
    (hRange : ∀ m, (x.mapRange m).Perm m) :
    (invocations ((ExtractJWTForAllCredentials sem x w).2.trace.drop w.trace.length)).length
      = (credentialIDs envs).dedup.length ∧
    (∀ id,
      ((invocations ((ExtractJWTForAllCredentials LoopVar.perIteration x w).2.trace.drop
          w.trace.length)).filter (fun call => decide (call.1.ID.String = id))).length
        = if id ∈ credentialIDs envs then 1 else 0) := by
  constructor
  · obtain ⟨hnd, hkeys, _, _⟩ := GroupInv.final sem envs
    rw [(ExtractJWTForAllCredentials_invocations sem x w envs hFind hne).2, List.length_map,
      (hRange _).length_eq]
    have hperm : ((ExtractJWTForAllCredentials.group sem 0 envs ([], [])).1.map Prod.fst).Perm
        (credentialIDs envs).dedup :=
      (List.perm_ext_iff_of_nodup hnd (List.nodup_dedup _)).2
        (fun id => by rw [hkeys, List.mem_dedup])
    rw [← hperm.length_eq, List.length_map]
  · intro id
    obtain ⟨hnd, hkeys, _, _⟩ := GroupInv.final LoopVar.perIteration envs
    rw [length_filter_map (fun call : AtermesCredentials × GoString => call.1.ID.String)
      (fun i => decide (i = id)),
      (ExtractJWTForAllCredentials_invocations LoopVar.perIteration x w envs hFind hne).2,
      List.map_map]
    have hcongr : List.map ((fun call : AtermesCredentials × GoString => call.1.ID.String) ∘
          (fun p : GoString × Nat =>
            (deref (LoopVar.perIteration.cells envs) p.2,
             tenantBaseURL (((ExtractJWTForAllCredentials.group LoopVar.perIteration 0 envs
               ([], [])).2.get p.1).getD []))))
          (x.mapRange (ExtractJWTForAllCredentials.group LoopVar.perIteration 0 envs ([], [])).1)
        = List.map Prod.fst
          (x.mapRange (ExtractJWTForAllCredentials.group LoopVar.perIteration 0 envs
            ([], [])).1) := by
      apply List.map_congr_left
      intro p hp
      have hp' := (hRange _).mem_iff.1 hp
      obtain ⟨b, hb, hd, _⟩ := ExtractJWTForAllCredentials.group_entry envs p.1 p.2 hp'
      simp only [Function.comp, hd]
      exact (firstBinding_some envs p.1 b hb).2
    rw [hcongr]
    have hperm := (hRange (ExtractJWTForAllCredentials.group LoopVar.perIteration 0 envs
      ([], [])).1).map Prod.fst
    rw [(hperm.filter (fun i => decide (i = id))).length_eq,
      length_filter_eq_of_nodup id _ hnd]
    simp only [hkeys]

/-- C3 at a concrete store: three bindings over two credentials, credential 2
fails; there are two invocations. -/
theorem ExtractJWTForAllCredentials_once_per_id_witness :
    (invocations ((ExtractJWTForAllCredentials LoopVar.perIteration (sampleExternals sampleEnvs)
        sampleWorld).2.trace.drop sampleWorld.trace.length)).length
      = (credentialIDs sampleEnvs).dedup.length :=
  (ExtractJWTForAllCredentials_once_per_id LoopVar.perIteration (sampleExternals sampleEnvs)
    sampleWorld sampleEnvs rfl (by decide) (fun m => List.reverse_perm m)).1

/-- C8. Representative binding: for every credential id occurring in the
list of enabled bindings, with `b` the first binding in list order that
carries it, some invocation of `extractOneCredential` gets the base URL
`https://` + the tenant of `b` + `.atermes.nl`, however loop variables are
allocated; with one loop variable per iteration, that invocation gets the
credential record of `b`, and every invocation whose record carries the id is
this one. -/
theorem ExtractJWTForAllCredentials_representative (sem : LoopVar) (x : Externals) (w : World)
    (envs : List AtermesEnvironment) (hFind : x.Find w = Except.ok envs)
    (hRange : ∀ m, (x.mapRange m).Perm m)
    (id : GoString) (b : AtermesEnvironment) (hfirst : firstBinding envs id = some b) :
    (gostr "https://" ++ b.Tenant ++ gostr ".atermes.nl") ∈
      (invocations ((ExtractJWTForAllCredentials sem x w).2.trace.drop
        w.trace.length)).map Prod.snd ∧
    (b.Credentials, gostr "https://" ++ b.Tenant ++ gostr ".atermes.nl") ∈
      invocations ((ExtractJWTForAllCredentials LoopVar.perIteration x w).2.trace.drop
        w.trace.length) ∧
    (∀ call ∈ invocations ((ExtractJWTForAllCredentials LoopVar.perIteration x w).2.trace.drop
        w.trace.length),
      call.1.ID.String = id →
      call = (b.Credentials, gostr "https://" ++ b.Tenant ++ gostr ".atermes.nl")) := by
  have hne : envs ≠ [] := by
    intro h
    rw [h] at hfirst
    cases hfirst
  have hid : id ∈ credentialIDs envs := by
    by_contra hc
    rw [(firstBinding_eq_none_iff envs id).2 hc] at hfirst
    cases hfirst
  refine ⟨?_, ?_⟩
  · obtain ⟨_, hkeys, _, hten⟩ := GroupInv.final sem envs
    rw [(ExtractJWTForAllCredentials_invocations sem x w envs hFind hne).2, List.map_map]
    obtain ⟨p, hp, hpid⟩ := List.mem_map.1 ((hkeys id).2 hid)
    refine List.mem_map.2 ⟨p, (hRange _).mem_iff.2 hp, ?_⟩
    simp only [Function.comp, hpid, hten id, hfirst]
    rfl
  obtain ⟨_, hkeys, _, _⟩ := GroupInv.final LoopVar.perIteration envs
  rw [(ExtractJWTForAllCredentials_invocations LoopVar.perIteration x w envs hFind hne).2]
  constructor
  · obtain ⟨p, hp, hpid⟩ := List.mem_map.1 ((hkeys id).2 hid)
    obtain ⟨b', hb', hd, ht⟩ := ExtractJWTForAllCredentials.group_entry envs p.1 p.2 hp
    rw [hpid, hfirst] at hb'
    injection hb' with hb'
    subst hb'
    refine List.mem_map.2 ⟨p, (hRange _).mem_iff.2 hp, ?_⟩
    simp only [hd, ht]
    rfl
  · intro call hcall hcid
    obtain ⟨p, hp, hpc⟩ := List.mem_map.1 hcall
    have hp' := (hRange _).mem_iff.1 hp
    obtain ⟨b', hb', hd, ht⟩ := ExtractJWTForAllCredentials.group_entry envs p.1 p.2 hp'
    simp only [hd, ht] at hpc
    subst hpc
    have hpid : p.1 = id := by
      rw [← (firstBinding_some envs p.1 b' hb').2]
      exact hcid
    rw [hpid, hfirst] at hb'
    injection hb' with hb'
    subst hb'
    rfl

/-- C8 at a concrete store: credential 1 is bound to `alpha` first and to
`gamma` later; it is processed on `https://alpha.atermes.nl`. -/
theorem ExtractJWTForAllCredentials_representative_witness :
    (sampleCredentials 1, gostr "https://" ++ gostr "alpha" ++ gostr ".atermes.nl") ∈
      invocations ((ExtractJWTForAllCredentials LoopVar.perIteration (sampleExternals sampleEnvs)
        sampleWorld).2.trace.drop sampleWorld.trace.length) :=
  (ExtractJWTForAllCredentials_representative LoopVar.perIteration (sampleExternals sampleEnvs)
    sampleWorld sampleEnvs rfl (fun m => List.reverse_perm m) [1] (sampleEnvironment "alpha" 1)
    rfl).2.1

/-- With a single loop variable shared by all iterations (a language version
before 1.22), every pointer stored in `credentialMap` leads to the credentials
of the last binding: on the sample store both invocations receive the record
of credential 1, the one of `gamma`, and credential 2 is never handed over. -/
theorem ExtractJWTForAllCredentials_shared_variable_alias :
    invocations ((ExtractJWTForAllCredentials LoopVar.shared (sampleExternals sampleEnvs)
        sampleWorld).2.trace.drop sampleWorld.trace.length)
      = [(sampleCredentials 1, tenantBaseURL (gostr "beta")),
         (sampleCredentials 1, tenantBaseURL (gostr "alpha"))] := by
  decide

/-! ## Cookies -/

theorem extractCookies.copy_concat (m : GoMap GoString GoString) (cookies : List Cookie)
    (c : Cookie) :
    extractCookies.copy m (cookies ++ [c]) = (extractCookies.copy m cookies).set c.Name c.Value := by
  simp [extractCookies.copy, List.foldl_append]

theorem lastCookieValue_concat (cookies : List Cookie) (c : Cookie) (name : GoString) :
    lastCookieValue (cookies ++ [c]) name =
      if c.Name = name then some c.Value else lastCookieValue cookies name := by
  unfold lastCookieValue
  rw [List.reverse_append, List.reverse_singleton, List.singleton_append, List.find?_cons]
  by_cases h : c.Name = name
  · simp [h]
  · simp [h]

theorem extractCookies.copy_get (m : GoMap GoString GoString) (name : GoString) :
    ∀ (cookies : List Cookie),
      (extractCookies.copy m cookies).get name =
        match lastCookieValue cookies name with
        | some v => some v
        | none => m.get name := by
  intro cookies
  induction cookies using List.reverseRecOn with
  | nil => rfl
  | append_singleton cookies c ih =>
    rw [extractCookies.copy_concat, lastCookieValue_concat]
    by_cases h : c.Name = name
    · subst h
      simp [GoMap.get_set_self]
    · rw [GoMap.get_set_ne _ _ _ _ h, ih]
      simp [h]

theorem lastCookieValue_of_mem (cookies : List Cookie) (c : Cookie) (hc : c ∈ cookies) :
    ∃ v, lastCookieValue cookies c.Name = some v := by
  unfold lastCookieValue
  cases hf : cookies.reverse.find? (fun c' => decide (c'.Name = c.Name)) with
  | some c' => exact ⟨c'.Value, rfl⟩
  | none =>
    rw [List.find?_eq_none] at hf
    have := hf c (List.mem_reverse.2 hc)
    simp at this

theorem lastCookieValue_of_nodup :
    ∀ (cookies : List Cookie), (cookies.map (fun c => c.Name)).Nodup →
      ∀ c ∈ cookies, lastCookieValue cookies c.Name = some c.Value := by
  intro cookies
  induction cookies using List.reverseRecOn with
  | nil => intro _ c hc; simp at hc
  | append_singleton cookies d ih =>
    intro hnd c hc
    rw [lastCookieValue_concat]
    rw [List.map_append, List.nodup_append] at hnd
    obtain ⟨hnd1, _, hdisj⟩ := hnd
    rw [List.mem_append, List.mem_singleton] at hc
    rcases hc with hc | hc
    · have hne : ¬ d.Name = c.Name := by
        intro heq
        exact hdisj (List.mem_map.2 ⟨c, hc, rfl⟩) (by simp [heq])
      simp only [hne, if_false]
      exact ih hnd1 c hc
    · subst hc
      simp

/-! ## Sightings leave everything but the token alone -/

theorem applySighting_Cookies (unmarshal : Unmarshal) (e : Extractor) (s : Sighting) :
    (applySighting unmarshal e s).authData.Cookies = e.authData.Cookies := by
  rw [applySighting_eq]
  cases s.candidate unmarshal <;> rfl

theorem applySighting_JWT_congr (unmarshal : Unmarshal) (e e' : Extractor) (s : Sighting)
    (h : e.authData.JWT = e'.authData.JWT) :
    (applySighting unmarshal e s).authData.JWT = (applySighting unmarshal e' s).authData.JWT := by
  rw [applySighting_eq, applySighting_eq]
  cases s.candidate unmarshal with
  | none => exact h
  | some t => rfl

theorem applySightings_Cookies (unmarshal : Unmarshal) (ss : List Sighting) :
    ∀ (e : Extractor), (applySightings unmarshal e ss).authData.Cookies = e.authData.Cookies := by
  induction ss with
  | nil => intro e; rfl
  | cons s rest ih =>
    intro e
    have : applySightings unmarshal e (s :: rest) =
        applySightings unmarshal (applySighting unmarshal e s) rest := rfl
    rw [this, ih, applySighting_Cookies]

theorem applySightings_JWT_congr (unmarshal : Unmarshal) (ss : List Sighting) :
    ∀ (e e' : Extractor), e.authData.JWT = e'.authData.JWT →
      (applySightings unmarshal e ss).authData.JWT =
        (applySightings unmarshal e' ss).authData.JWT := by
  induction ss with
  | nil => intro e e' h; exact h
  | cons s rest ih =>
    intro e e' h
    have h1 : applySightings unmarshal e (s :: rest) =
        applySightings unmarshal (applySighting unmarshal e s) rest := rfl
    have h2 : applySightings unmarshal e' (s :: rest) =
        applySightings unmarshal (applySighting unmarshal e' s) rest := rfl
    rw [h1, h2]
    exact ih _ _ (applySighting_JWT_congr unmarshal e e' s h)

/-! ## Already authenticated -/

theorem executeLoginFlow_already_authenticated {P : Type} (b : Browser P) (e : Extractor)
    (s : Session P)
    (hGoto : (b.Goto s.page e.baseURL).1 = none)
    (hIdp : strings.Contains (b.URL (b.Sleep (b.Goto s.page e.baseURL).2 1000))
      (gostr "b2clogin.com") = false)
    (hLogin : strings.Contains (b.URL (b.Sleep (b.Goto s.page e.baseURL).2 1000))
      (gostr "/Account/Login") = false) :
    executeLoginFlow b e s =
      (none, { page := b.Sleep (b.Goto s.page e.baseURL).2 1000,
               trace := s.trace ++ [Action.goto e.baseURL, Action.sleep 1000] }) := by
  unfold executeLoginFlow
  simp [Session.goto, Session.sleep, hGoto, hIdp, hLogin]

/-- C11, as stated, fails: on a page that is already on the dashboard (the
navigation succeeds, the URL contains neither `b2clogin.com` nor
`/Account/Login`), `Extract` returns an error when the cookies of the context
cannot be read; and when the session holds two cookies named `sid`, with
values `A` and `B`, the map ends with `sid` mapped to `B` only, so the cookie
`sid = A` is not in it. -/
theorem Extract_already_authenticated_counterexample :
    (dashboardBrowser.Goto 0 sampleExtractor.baseURL).1 = none ∧
    strings.Contains
      (dashboardBrowser.URL
        (dashboardBrowser.Sleep (dashboardBrowser.Goto 0 sampleExtractor.baseURL).2 1000))
      (gostr "b2clogin.com") = false ∧
    strings.Contains
      (dashboardBrowser.URL
        (dashboardBrowser.Sleep (dashboardBrowser.Goto 0 sampleExtractor.baseURL).2 1000))
      (gostr "/Account/Login") = false ∧
    (Extract dashboardBrowser closedContext sampleUnmarshal [] [] sampleExtractor
      { page := 0, trace := [] }).1 = some (Error.lib "target closed") ∧
    ({ Name := gostr "sid", Value := gostr "A" } : Cookie) ∈ sampleCookies ∧
    (Extract dashboardBrowser (cookieContext sampleCookies) sampleUnmarshal [] [] sampleExtractor
      { page := 0, trace := [] }).2.1.authData.Cookies.get (gostr "sid") = some (gostr "B") := by
  decide

/-- C11, amended. Already authenticated: whenever the initial navigation
succeeds and the page URL after the settle delay contains neither
`b2clogin.com` nor `/Account/Login`, `executeLoginFlow` returns success having
done nothing but that navigation and the wait of one second: no fill, no
click, no key press, no second navigation. `Extract` then reads the cookies of
the context. When that read succeeds, it assigns every cookie to
`AuthData.Cookies` in the order returned, name mapped to value, so that each
cookie name ends mapped to the value of the last cookie carrying it (to the
value of its one cookie when names are distinct); it waits two seconds and
returns success, whatever token the sightings left, none included. When the
read fails, `Extract` returns that error. -/
theorem Extract_already_authenticated {P : Type} (b : Browser P) (ctx : BrowserContext P)
    (unmarshal : Unmarshal) (duringFlow afterFlow : List Sighting) (e : Extractor)
    (s : Session P)
    (hGoto : (b.Goto s.page e.baseURL).1 = none)
    (hIdp : strings.Contains (b.URL (b.Sleep (b.Goto s.page e.baseURL).2 1000))
      (gostr "b2clogin.com") = false)
    (hLogin : strings.Contains (b.URL (b.Sleep (b.Goto s.page e.baseURL).2 1000))
      (gostr "/Account/Login") = false) :
    ((executeLoginFlow b e s).1 = none ∧
      (executeLoginFlow b e s).2.trace =
        s.trace ++ [Action.goto e.baseURL, Action.sleep 1000]) ∧
    (∀ (cookies : List Cookie),
      ctx.Cookies (b.Sleep (b.Goto s.page e.baseURL).2 1000) = Except.ok cookies →
      (Extract b ctx unmarshal duringFlow afterFlow e s).1 = none ∧
      (Extract b ctx unmarshal duringFlow afterFlow e s).2.1.authData.Cookies =
        extractCookies.copy e.authData.Cookies cookies ∧
      (∀ c ∈ cookies,
        (Extract b ctx unmarshal duringFlow afterFlow e s).2.1.authData.Cookies.get c.Name =
          lastCookieValue cookies c.Name) ∧
      ((cookies.map (fun c => c.Name)).Nodup → ∀ c ∈ cookies,
        (Extract b ctx unmarshal duringFlow afterFlow e s).2.1.authData.Cookies.get c.Name =
          some c.Value) ∧
      (Extract b ctx unmarshal duringFlow afterFlow e s).2.1.authData.JWT =
        (applySightings unmarshal e (duringFlow ++ afterFlow)).authData.JWT ∧
      (Extract b ctx unmarshal duringFlow afterFlow e s).2.2.trace =
        s.trace ++ [Action.goto e.baseURL, Action.sleep 1000, Action.sleep 2000]) ∧
    (∀ (msg : String),
      ctx.Cookies (b.Sleep (b.Goto s.page e.baseURL).2 1000) = Except.error msg →
      (Extract b ctx unmarshal duringFlow afterFlow e s).1 = some (Error.lib msg) ∧
      (Extract b ctx unmarshal duringFlow afterFlow e s).2.2.trace =
        s.trace ++ [Action.goto e.baseURL, Action.sleep 1000]) := by
  have hflow := executeLoginFlow_already_authenticated b e s hGoto hIdp hLogin
  refine ⟨by rw [hflow]; exact ⟨rfl, rfl⟩, ?_, ?_⟩
  · intro cookies hcookies
    have hex : Extract b ctx unmarshal duringFlow afterFlow e s =
        (none,
         applySightings unmarshal
           { applySightings unmarshal e duringFlow with
             authData :=
               { (applySightings unmarshal e duringFlow).authData with
                 Cookies := extractCookies.copy
                   (applySightings unmarshal e duringFlow).authData.Cookies cookies } }
           afterFlow,
         { page := b.Sleep (b.Sleep (b.Goto s.page e.baseURL).2 1000) 2000,
           trace := s.trace ++ [Action.goto e.baseURL, Action.sleep 1000, Action.sleep 2000] }) := by
      unfold Extract
      rw [hflow]
      simp [extractCookies, hcookies, Session.sleep]
    have hck : (Extract b ctx unmarshal duringFlow afterFlow e s).2.1.authData.Cookies =
        extractCookies.copy e.authData.Cookies cookies := by
      rw [hex]
      simp only
      rw [applySightings_Cookies]
      simp only
      rw [applySightings_Cookies]
    refine ⟨by rw [hex], hck, ?_, ?_, ?_, by rw [hex]⟩
    · intro c hc
      rw [hck, extractCookies.copy_get]
      obtain ⟨v, hv⟩ := lastCookieValue_of_mem cookies c hc
      rw [hv]
    · intro hnd c hc
      rw [hck, extractCookies.copy_get, lastCookieValue_of_nodup cookies hnd c hc]
    · rw [hex]
      simp only
      rw [applySightings_append]
      exact applySightings_JWT_congr unmarshal afterFlow _ _ rfl
  · intro msg hcookies
    unfold Extract
    rw [hflow]
    simp [extractCookies, hcookies]

/-- C11 amended, on the dashboard page with three cookies, two of them named
`sid`: `Extract` succeeds with no token captured, `lang` is mapped to `nl` and
`sid` to the later value `B`. -/
theorem Extract_already_authenticated_witness :
    (Extract dashboardBrowser (cookieContext sampleCookies) sampleUnmarshal [] [] sampleExtractor
      { page := 0, trace := [] }).1 = none ∧
    (Extract dashboardBrowser (cookieContext sampleCookies) sampleUnmarshal [] [] sampleExtractor
      { page := 0, trace := [] }).2.1.authData.Cookies =
        extractCookies.copy sampleExtractor.authData.Cookies sampleCookies :=
  ⟨((Extract_already_authenticated dashboardBrowser (cookieContext sampleCookies) sampleUnmarshal
      [] [] sampleExtractor { page := 0, trace := [] } rfl (by decide) (by decide)).2.1
      sampleCookies rfl).1,
   ((Extract_already_authenticated dashboardBrowser (cookieContext sampleCookies) sampleUnmarshal
      [] [] sampleExtractor { page := 0, trace := [] } rfl (by decide) (by decide)).2.1
      sampleCookies rfl).2.1⟩

end Atermes
